import Mathlib

/-!
Verification development for the curling-game physics engine
(src/js/physics.js and src/js/stone.js).

Modelling conventions:
- JavaScript numbers are modelled as exact real numbers; Math.hypot x y is
  Real.sqrt (x*x + y*y).
- Optional constructor / geometry inputs that the code checks for absence
  (stoneRadius, hogLineNear, hogLineFar, sheetExtents, backLineY) are
  modelled as Option; JS comparisons against an undefined line are false,
  which the crossing predicates encode explicitly.
- The twelve tuning parameters are always set by the constructor (JS default
  parameter values), so the defensive in-code fallbacks on those fields
  (for example this.curlMinOmega with a nullish fallback to the default)
  are identity and the engine fields are plain reals.
- Callbacks are modelled as an emitted event list: an event stands for the
  corresponding callback invocation (the game registers the callbacks).
  The stopped-notification latch is modelled with the callback registered,
  as in the game (main.js registers onStoneStopped).
- performance.now() readings during a step are modelled by a `now`
  parameter threaded through the step.
-/

noncomputable section

namespace Curling

/-- Constant SPEED_EPSILON from physics.js. -/
def SPEED_EPSILON : ℝ := 0.01

/-- Constant TWO_PI from physics.js. -/
def TWO_PI : ℝ := Real.pi * 2

/-- Constant FOOT_IN_METERS from physics.js. -/
def FOOT_IN_METERS : ℝ := 0.3048

/-- Constant DEFAULT_FRICTION_BASELINE from physics.js. -/
def DEFAULT_FRICTION_BASELINE : ℝ := 0.0164

/-- Constant DEFAULT_FRICTION_SPEED_FACTOR from physics.js. -/
def DEFAULT_FRICTION_SPEED_FACTOR : ℝ := 0.1732

/-- Constant DEFAULT_FRICTION_LOW_SPEED_EPS from physics.js. -/
def DEFAULT_FRICTION_LOW_SPEED_EPS : ℝ := 1.0

/-- Constant DEFAULT_CURL_MIN_SPEED from physics.js. -/
def DEFAULT_CURL_MIN_SPEED : ℝ := 0.15

/-- Constant DEFAULT_CURL_ROTATION_REFERENCE from physics.js. -/
def DEFAULT_CURL_ROTATION_REFERENCE : ℝ := 6.0

/-- Constant DEFAULT_CURL_ASYMMETRY from physics.js. -/
def DEFAULT_CURL_ASYMMETRY : ℝ := 0.008

/-- Constant DEFAULT_CURL_VELOCITY_BIAS from physics.js. -/
def DEFAULT_CURL_VELOCITY_BIAS : ℝ := 0.5

/-- Constant DEFAULT_CURL_MIN_OMEGA from physics.js. -/
def DEFAULT_CURL_MIN_OMEGA : ℝ := 0.05

/-- Constant GRAVITY from physics.js. -/
def GRAVITY : ℝ := 9.81

/-- Constant DEFAULT_COLLISION_RESTITUTION from physics.js. -/
def DEFAULT_COLLISION_RESTITUTION : ℝ := 0.9

/-- Constant DEFAULT_COLLISION_SPIN_TRANSFER from physics.js. -/
def DEFAULT_COLLISION_SPIN_TRANSFER : ℝ := 0.3

/-- Constant DEFAULT_COLLISION_SPIN_DAMPING from physics.js. -/
def DEFAULT_COLLISION_SPIN_DAMPING : ℝ := 0.001

/-- Constant DEFAULT_COLLISION_TANGENTIAL_LOSS from physics.js. -/
def DEFAULT_COLLISION_TANGENTIAL_LOSS : ℝ := 0.1

/-- Constant COLLISION_EPSILON from physics.js. -/
def COLLISION_EPSILON : ℝ := 1e-4

/-- Constant DEFAULT_PATH_SAMPLE_INTERVAL from physics.js. -/
def DEFAULT_PATH_SAMPLE_INTERVAL : ℝ := 1.0

/-- Constant MAX_PATH_SAMPLE_POINTS from physics.js. -/
def MAX_PATH_SAMPLE_POINTS : ℕ := 240

/-- Math.hypot for two arguments. -/
def hypot (x y : ℝ) : ℝ := Real.sqrt (x * x + y * y)

/-- Math.sign. -/
def jsign (x : ℝ) : ℝ := if x < 0 then -1 else if 0 < x then 1 else 0

/-- Truncation toward zero, as used by the JS remainder operator. -/
def rtz (q : ℝ) : ℤ := if 0 ≤ q then ⌊q⌋ else -⌊-q⌋

/-- The JS remainder a % n (sign of the dividend). -/
def jsRem (a n : ℝ) : ℝ := a - n * (rtz (a / n) : ℝ)

/-- StoneColor from stone.js: a fixed two-value team enumeration. -/
inductive StoneColor where
  | red
  | yellow
deriving DecidableEq, Repr

/-- A 2D point {x, y}. -/
structure Point where
  x : ℝ
  y : ℝ

/-- A velocity {vx, vy}. -/
structure Vel where
  vx : ℝ
  vy : ℝ

/-- hogTiming: nullable wall-clock timestamps (physics.js attachTiming). -/
structure HogTiming where
  nearCrossedAt : Option ℝ := none
  farCrossedAt : Option ℝ := none

/-- Sheet extents {xMin, xMax, yMin, yMax}. -/
structure Extents where
  xMin : ℝ
  xMax : ℝ
  yMin : ℝ
  yMax : ℝ

/-- A curling stone: the CurlingStone record from stone.js plus the fields
the engine attaches (number, flags, pending spin, hog timing, path trace). -/
structure Stone where
  position : Point
  velocity : Vel
  rotationRate : ℝ
  pendingRotationRate : ℝ
  angle : ℝ
  color : StoneColor
  number : ℤ
  isLaunched : Bool
  isOut : Bool
  rotationActivated : Bool
  hasStoppedNotified : Bool
  hogTiming : HogTiming
  pathSamples : List Point
  pathSampleTimer : ℝ

/-- Events standing for the engine's synchronous callback invocations. -/
inductive Event where
  | released (t : ℝ)
  | stopped (c : StoneColor) (n : ℤ)
  | hogNearCross
  | hogSplit (d : ℝ)

/-- The PhysicsEngine state (fields set by the constructor plus the mutable
collections). The stone registry (stoneInventory, keyed by color:number with
last-set-wins) is represented by the stones list itself; lookup returns the
last matching stone, mirroring repeated Map.set on a duplicate key. -/
structure Engine where
  frictionBaseline : ℝ
  frictionSpeedFactor : ℝ
  frictionLowSpeedEps : ℝ
  curlMinSpeed : ℝ
  curlRotationReference : ℝ
  curlAsymmetry : ℝ
  curlVelocityBias : ℝ
  curlMinOmega : ℝ
  collisionRestitution : ℝ
  collisionSpinTransfer : ℝ
  collisionSpinDamping : ℝ
  collisionTangentialLoss : ℝ
  pathSampleInterval : ℝ
  maxPathSamples : ℕ
  launchY : ℝ
  stoneRadius : Option ℝ
  hogLineNear : Option ℝ
  hogLineFar : Option ℝ
  sheetExtents : Option Extents
  backLineY : Option ℝ
  stones : List Stone
  outTrayLayouts : List (StoneColor × List Point)
  outTrayIndices : List (StoneColor × ℕ)
  isActive : Bool
  lastTimestamp : Option ℝ

/-- The constructor's destructured options object. A JS caller may place any
keys in this object; the constructor's destructuring pattern binds only the
parameters listed in physics.js lines 41-64. In particular
pathSampleInterval and maxPathSamples can be supplied by a caller but are
not bound by the pattern. -/
structure EngineConfig where
  frictionBaseline : Option ℝ := none
  frictionSpeedFactor : Option ℝ := none
  frictionLowSpeedEps : Option ℝ := none
  curlMinSpeed : Option ℝ := none
  curlRotationReference : Option ℝ := none
  curlAsymmetry : Option ℝ := none
  curlVelocityBias : Option ℝ := none
  curlMinOmega : Option ℝ := none
  collisionRestitution : Option ℝ := none
  collisionSpinTransfer : Option ℝ := none
  collisionSpinDamping : Option ℝ := none
  collisionTangentialLoss : Option ℝ := none
  pathSampleInterval : Option ℝ := none
  maxPathSamples : Option ℕ := none
  launchY : ℝ := 0
  stoneRadius : Option ℝ := none
  hogLineNear : Option ℝ := none
  hogLineFar : Option ℝ := none
  sheetExtents : Option Extents := none
  backLineY : Option ℝ := none

/-- PhysicsEngine constructor (physics.js lines 41-95). Each tuning
parameter defaults when the caller omits it; pathSampleInterval and
maxPathSamples are NOT constructor parameters: lines 77-78 assign the
module constants unconditionally, so any supplied values are ignored. -/
def mkEngine (cfg : EngineConfig) : Engine where
  frictionBaseline := cfg.frictionBaseline.getD DEFAULT_FRICTION_BASELINE
  frictionSpeedFactor := cfg.frictionSpeedFactor.getD DEFAULT_FRICTION_SPEED_FACTOR
  frictionLowSpeedEps := cfg.frictionLowSpeedEps.getD DEFAULT_FRICTION_LOW_SPEED_EPS
  curlMinSpeed := cfg.curlMinSpeed.getD DEFAULT_CURL_MIN_SPEED
  curlRotationReference := cfg.curlRotationReference.getD DEFAULT_CURL_ROTATION_REFERENCE
  curlAsymmetry := cfg.curlAsymmetry.getD DEFAULT_CURL_ASYMMETRY
  curlVelocityBias := cfg.curlVelocityBias.getD DEFAULT_CURL_VELOCITY_BIAS
  curlMinOmega := cfg.curlMinOmega.getD DEFAULT_CURL_MIN_OMEGA
  collisionRestitution := cfg.collisionRestitution.getD DEFAULT_COLLISION_RESTITUTION
  collisionSpinTransfer := cfg.collisionSpinTransfer.getD DEFAULT_COLLISION_SPIN_TRANSFER
  collisionSpinDamping := cfg.collisionSpinDamping.getD DEFAULT_COLLISION_SPIN_DAMPING
  collisionTangentialLoss := cfg.collisionTangentialLoss.getD DEFAULT_COLLISION_TANGENTIAL_LOSS
  pathSampleInterval := DEFAULT_PATH_SAMPLE_INTERVAL
  maxPathSamples := MAX_PATH_SAMPLE_POINTS
  launchY := cfg.launchY
  stoneRadius := cfg.stoneRadius
  hogLineNear := cfg.hogLineNear
  hogLineFar := cfg.hogLineFar
  sheetExtents := cfg.sheetExtents
  backLineY := cfg.backLineY
  stones := []
  outTrayLayouts := []
  outTrayIndices := []
  isActive := false
  lastTimestamp := none

/-- resetStonePath (physics.js lines 457-464). -/
def resetStonePath (s : Stone) (includeCurrentPosition : Bool := true) : Stone :=
  { s with
    pathSamples := if includeCurrentPosition then [s.position] else []
    pathSampleTimer := 0 }

/-- attachTiming (physics.js lines 180-185). -/
def attachTiming (s : Stone) : Stone :=
  { s with hogTiming := { nearCrossedAt := none, farCrossedAt := none } }

/-- The list trimming of trimPathSamples (physics.js lines 500-508): a falsy
(zero) cap disables trimming; otherwise the excess over the cap is spliced
off the front. -/
def trimList (cap : ℕ) (l : List Point) : List Point :=
  if cap = 0 then l
  else if cap < l.length then l.drop (l.length - cap) else l

/-- trimPathSamples (physics.js lines 500-508). -/
def trimPathSamples (e : Engine) (s : Stone) : Stone :=
  { s with pathSamples := trimList e.maxPathSamples s.pathSamples }

/-- The trace-and-timer effect of appendTerminalPathPoint (physics.js lines
486-498), which mutates only the stone's pathSamples (and, through
resetStonePath when the trace is empty, its pathSampleTimer). -/
def appendTerminalList (cap : ℕ) (l : List Point) (pos : Point) (timer : ℝ) :
    List Point × ℝ :=
  match l.getLast? with
  | none => ([pos], 0)
  | some last =>
    if last.x ≠ pos.x ∨ last.y ≠ pos.y then (trimList cap (l ++ [pos]), timer)
    else (l, timer)

/-- appendTerminalPathPoint (physics.js lines 486-498). -/
def appendTerminalPathPoint (e : Engine) (s : Stone) : Stone :=
  { s with
    pathSamples :=
      (appendTerminalList e.maxPathSamples s.pathSamples ⟨s.position.x, s.position.y⟩
        s.pathSampleTimer).1
    pathSampleTimer :=
      (appendTerminalList e.maxPathSamples s.pathSamples ⟨s.position.x, s.position.y⟩
        s.pathSampleTimer).2 }

/-- The while-loop body of recordStonePathSample, iterated n times: push the
current position, then trim. -/
def pushLoop (cap : ℕ) (pt : Point) : ℕ → List Point → List Point
  | 0, l => l
  | n + 1, l => pushLoop cap pt n (trimList cap (l ++ [pt]))

/-- The trace-and-timer effect of recordStonePathSample (physics.js lines
466-484), which mutates only pathSamples and pathSampleTimer. The stone's
pathSamples array always exists in this model, so the in-code
undefined-array reset is unreachable. The while loop runs
⌊timer / interval⌋ times (for a positive interval; the JS loop does not
terminate otherwise, and the engine always has interval 1.0), decrementing
the timer by the interval each push. -/
def pathSampleEffect (e : Engine) (s : Stone) (deltaSeconds displacement : ℝ) :
    List Point × ℝ :=
  if displacement > 0 ∧ deltaSeconds > 0 then
    let timer := s.pathSampleTimer + deltaSeconds
    let interval := e.pathSampleInterval
    let n : ℕ := if 0 < interval then (⌊timer / interval⌋).toNat else 0
    (pushLoop e.maxPathSamples ⟨s.position.x, s.position.y⟩ n s.pathSamples,
     timer - n * interval)
  else appendTerminalList e.maxPathSamples s.pathSamples ⟨s.position.x, s.position.y⟩
    s.pathSampleTimer

/-- recordStonePathSample (physics.js lines 466-484). -/
def recordStonePathSample (e : Engine) (s : Stone) (deltaSeconds displacement : ℝ) : Stone :=
  { s with
    pathSamples := (pathSampleEffect e s deltaSeconds displacement).1
    pathSampleTimer := (pathSampleEffect e s deltaSeconds displacement).2 }

/-- checkRotationActivation (physics.js lines 326-341). -/
def checkRotationActivation (s : Stone) (previousY activationY : ℝ) : Stone :=
  if s.rotationActivated = true ∨ s.pendingRotationRate = 0 then s
  else
    let currentY := s.position.y
    if ((previousY < activationY ∧ currentY ≥ activationY) ∨
        (previousY > activationY ∧ currentY ≤ activationY)) ∨ currentY = activationY then
      { s with
        rotationRate := s.pendingRotationRate
        pendingRotationRate := 0
        rotationActivated := true }
    else s

/-- The spin-activation line computed in step (physics.js line 206):
two feet before the near hog line. -/
def rotationActivationY (e : Engine) : ℝ := e.hogLineNear.getD 0 - FOOT_IN_METERS * 2

/-- Direction-independent line-crossing test used by checkHogLineCrossings
(physics.js lines 432-435 and 446-447): comparisons against an undefined
line are all false in JS, encoded by the isSome conjunct. -/
def crossesLine (line : Option ℝ) (previousY currentY : ℝ) : Prop :=
  line.isSome = true ∧
    ((previousY < line.getD 0 ∧ currentY ≥ line.getD 0) ∨
     (previousY > line.getD 0 ∧ currentY ≤ line.getD 0))

instance (line : Option ℝ) (p c : ℝ) : Decidable (crossesLine line p c) := by
  unfold crossesLine
  infer_instance

/-- The timing-and-notification effect of checkHogLineCrossings (physics.js
lines 424-455), which mutates only the stone's hogTiming. The stone's
hogTiming record always exists in this model. -/
def hogCrossEffect (e : Engine) (timing : HogTiming) (previousY currentY now : ℝ) :
    HogTiming × List Event :=
  let first :=
    if timing.nearCrossedAt = none ∧ crossesLine e.hogLineNear previousY currentY then
      (({ timing with nearCrossedAt := some now } : HogTiming), [Event.hogNearCross])
    else (timing, [])
  match first.1.nearCrossedAt, first.1.farCrossedAt with
  | some t1, none =>
    if crossesLine e.hogLineFar previousY currentY then
      (({ first.1 with farCrossedAt := some now } : HogTiming),
       first.2 ++ [Event.hogSplit (now - t1)])
    else first
  | _, _ => first

/-- checkHogLineCrossings (physics.js lines 424-455): updates the stone's
hogTiming and returns the notifications fired. -/
def checkHogLineCrossings (e : Engine) (s : Stone) (previousY now : ℝ) : Stone × List Event :=
  ({ s with hogTiming := (hogCrossEffect e s.hogTiming previousY s.position.y now).1 },
   (hogCrossEffect e s.hogTiming previousY s.position.y now).2)

/-- isOutBeforeFarHog (physics.js lines 351-356): false when hogLineFar is
absent. -/
def isOutBeforeFarHog (e : Engine) (s : Stone) : Prop :=
  e.hogLineFar.isSome = true ∧ s.position.y < e.hogLineFar.getD 0

instance (e : Engine) (s : Stone) : Decidable (isOutBeforeFarHog e s) := by
  unfold isOutBeforeFarHog
  infer_instance

/-- isOutOfBounds (physics.js lines 358-377): skipped entirely without
sheetExtents; with extents but an undefined stoneRadius every comparison
involves NaN and is false, encoded by the isSome conjunct. -/
def isOutOfBounds (e : Engine) (s : Stone) : Prop :=
  e.sheetExtents.isSome = true ∧ e.stoneRadius.isSome = true ∧
    (s.position.x ≤ (e.sheetExtents.getD ⟨0, 0, 0, 0⟩).xMin + e.stoneRadius.getD 0 ∨
     s.position.x ≥ (e.sheetExtents.getD ⟨0, 0, 0, 0⟩).xMax - e.stoneRadius.getD 0 ∨
     (e.backLineY.isSome = true ∧ s.position.y - e.stoneRadius.getD 0 ≥ e.backLineY.getD 0))

instance (e : Engine) (s : Stone) : Decidable (isOutOfBounds e s) := by
  unfold isOutOfBounds
  infer_instance

/-- Map.set semantics on an association list (insert or overwrite). -/
def setAssoc (l : List (StoneColor × ℕ)) (c : StoneColor) (v : ℕ) : List (StoneColor × ℕ) :=
  if (l.lookup c).isSome then
    l.map (fun p => if p.1 = c then (c, v) else p)
  else l ++ [(c, v)]

/-- placeStoneInOutTray (physics.js lines 395-408); returns the relocated
stone and the updated out-tray indices. -/
def placeStoneInOutTray (e : Engine) (trays : List (StoneColor × ℕ)) (s : Stone) :
    Stone × List (StoneColor × ℕ) :=
  match e.outTrayLayouts.lookup s.color with
  | none => (s, trays)
  | some slots =>
    if slots.length = 0 then (s, trays)
    else
      let currentIndex := (trays.lookup s.color).getD 0
      let slot := slots.getD (min currentIndex (slots.length - 1)) ⟨0, 0⟩
      ({ s with position := slot },
       setAssoc trays s.color (min (currentIndex + 1) (slots.length - 1)))

/-- handleStoneOut (physics.js lines 379-393). -/
def handleStoneOut (e : Engine) (trays : List (StoneColor × ℕ)) (s : Stone) :
    Stone × List (StoneColor × ℕ) × List Event :=
  let s1 : Stone :=
    { s with
      velocity := ⟨0, 0⟩
      pendingRotationRate := 0
      rotationRate := 0
      rotationActivated := true
      angle := 0
      isLaunched := false
      isOut := true
      hasStoppedNotified := true }
  let placed := placeStoneInOutTray e trays s1
  (placed.1, placed.2, [Event.stopped s1.color s1.number])

/-- Constant MAX_DELTA from computeCurlHeadingDelta. -/
def MAX_DELTA : ℝ := 0.35

/-- computeCurlHeadingDelta (physics.js lines 676-718). deltaSeconds is the
nullable fourth argument (step always passes the step duration). -/
def computeCurlHeadingDelta (e : Engine) (s : Stone) (speed displacement : ℝ)
    (deltaSeconds : Option ℝ) : ℝ :=
  let rotationRate := s.rotationRate
  let spinDirection := jsign rotationRate
  if spinDirection = 0 ∨ |rotationRate| < e.curlMinOmega then 0
  else
    let direction := -spinDirection
    let effectiveSpeed := max speed e.curlMinSpeed
    if effectiveSpeed ≤ SPEED_EPSILON then 0
    else
      let rotationRef := max e.curlRotationReference SPEED_EPSILON
      let rotationFactor := min (|rotationRate| / rotationRef) 1
      if rotationFactor ≤ 0 then 0
      else
        let velocityBias := max e.curlVelocityBias 0
        let velocityScaling := 1 / (effectiveSpeed + velocityBias)
        let lateralAcceleration :=
          GRAVITY * e.curlAsymmetry * direction * rotationFactor * velocityScaling
        let approxTimeStep :=
          match deltaSeconds with
          | some d => d
          | none => if displacement > 0 then displacement / max effectiveSpeed SPEED_EPSILON else 0
        if approxTimeStep ≤ 0 then 0
        else max (-MAX_DELTA) (min MAX_DELTA (lateralAcceleration / effectiveSpeed * approxTimeStep))

/-- Result of integrating a single stone for one step (one iteration of the
per-stone loop in step, physics.js lines 208-314). -/
structure StoneStepResult where
  stone : Stone
  trays : List (StoneColor × ℕ)
  events : List Event
  moving : Bool

/-- Angle integration with wrap into [0, 2 pi) (physics.js lines 214-220). -/
def wrapAngle (angle rotationRate deltaSeconds : ℝ) : ℝ :=
  let a1 := angle + rotationRate * deltaSeconds
  let a2 := if a1 ≥ TWO_PI ∨ a1 ≤ -TWO_PI then jsRem a1 TWO_PI else a1
  if a2 < 0 then a2 + TWO_PI else a2

/-- Spin decay (physics.js lines 226-235): magnitude reduced by the
speed-dependent friction multiplier, sign preserved, clamped to zero. -/
def decayRotation (rotationRate speed friction deltaSeconds : ℝ) : ℝ :=
  if rotationRate ≠ 0 then
    let rotationFrictionMultiplier : ℝ := if speed ≤ SPEED_EPSILON then 1.4 else 0.7
    let reducedAngularSpeed :=
      max 0 (|rotationRate| - rotationFrictionMultiplier * friction * deltaSeconds)
    if reducedAngularSpeed = 0 then 0 else jsign rotationRate * reducedAngularSpeed
  else rotationRate

/-- Heading rotation by the curl delta (physics.js lines 271-278). -/
def rotateDir (dirX dirY headingDelta : ℝ) : ℝ × ℝ :=
  if headingDelta ≠ 0 then
    (dirX * Real.cos headingDelta - dirY * Real.sin headingDelta,
     dirX * Real.sin headingDelta + dirY * Real.cos headingDelta)
  else (dirX, dirY)

/-- One iteration of the per-stone loop of step (physics.js lines 208-314):
angle integration and wrap, friction, spin decay, either the at-rest branch
(speed at or below epsilon) or translation with curl, bounds ruling,
spin-activation and hog-line checks, and the low-speed velocity snap.
The loop body reads only the stone itself plus engine configuration and the
out-tray indices, which are threaded through. -/
def stepStone (e : Engine) (trays : List (StoneColor × ℕ)) (deltaSeconds now : ℝ)
    (s : Stone) : StoneStepResult :=
  if s.isLaunched = false then ⟨s, trays, [], false⟩
  else
    let rotationRate0 := s.rotationRate
    let angle3 := wrapAngle s.angle rotationRate0 deltaSeconds
    let speed := hypot s.velocity.vx s.velocity.vy
    let friction := e.frictionBaseline + e.frictionSpeedFactor / (speed + e.frictionLowSpeedEps)
    let newRotationRate := decayRotation rotationRate0 speed friction deltaSeconds
    let s1 : Stone := { s with angle := angle3, rotationRate := newRotationRate }
    let rotationActive := decide (|s1.rotationRate| > SPEED_EPSILON)
    if speed ≤ SPEED_EPSILON then
      let s3 := recordStonePathSample e { s1 with velocity := ⟨0, 0⟩ } deltaSeconds 0
      if rotationActive = false then
        if isOutBeforeFarHog e s3 then
          let r := handleStoneOut e trays s3
          ⟨r.1, r.2.1, r.2.2, false⟩
        else if s3.hasStoppedNotified = false then
          ⟨{ s3 with hasStoppedNotified := true }, trays,
           [Event.stopped s3.color s3.number], false⟩
        else ⟨s3, trays, [], false⟩
      else
        ⟨{ s3 with hasStoppedNotified := false }, trays, [], true⟩
    else
      let s2 : Stone := { s1 with hasStoppedNotified := false }
      let dirX := s2.velocity.vx / speed
      let dirY := s2.velocity.vy / speed
      let newSpeed := max 0 (speed - friction * deltaSeconds)
      let displacement := (speed + newSpeed) * 0.5 * deltaSeconds
      let headingDelta := computeCurlHeadingDelta e s2 speed displacement (some deltaSeconds)
      let dirX2 := (rotateDir dirX dirY headingDelta).1
      let dirY2 := (rotateDir dirX dirY headingDelta).2
      let previousY := s2.position.y
      let s3 : Stone :=
        { s2 with position := ⟨s2.position.x + dirX2 * displacement,
                               s2.position.y + dirY2 * displacement⟩ }
      let s4 := recordStonePathSample e s3 deltaSeconds displacement
      let s5 : Stone := { s4 with velocity := ⟨dirX2 * newSpeed, dirY2 * newSpeed⟩ }
      if isOutOfBounds e s5 then
        let r := handleStoneOut e trays s5
        ⟨r.1, r.2.1, r.2.2, false⟩
      else
        let s6 := checkRotationActivation s5 previousY (rotationActivationY e)
        let hog := checkHogLineCrossings e s6 previousY now
        let s7 := hog.1
        if hypot s7.velocity.vx s7.velocity.vy > SPEED_EPSILON then
          ⟨s7, trays, hog.2, true⟩
        else
          let s8 : Stone := { s7 with velocity := ⟨0, 0⟩ }
          if rotationActive = false then
            if isOutBeforeFarHog e s8 then
              let r := handleStoneOut e trays s8
              ⟨r.1, r.2.1, hog.2 ++ r.2.2, false⟩
            else if s8.hasStoppedNotified = false then
              ⟨{ s8 with hasStoppedNotified := true }, trays,
               hog.2 ++ [Event.stopped s8.color s8.number], false⟩
            else ⟨s8, trays, hog.2, false⟩
          else ⟨s8, trays, hog.2, true⟩

/-- Accumulator for folding stepStone over the stone list. -/
structure StepAcc where
  stones : List Stone
  trays : List (StoneColor × ℕ)
  events : List Event
  moving : Bool

/-- The per-stone phase of step: the loop over this.stones in registration
order (physics.js lines 208-314). -/
def stepAllStones (e : Engine) (deltaSeconds now : ℝ) : StepAcc :=
  e.stones.foldl
    (fun acc s =>
      let r := stepStone e acc.trays deltaSeconds now s
      ⟨acc.stones ++ [r.stone], r.trays, acc.events ++ r.events, acc.moving || r.moving⟩)
    ⟨[], e.outTrayIndices, [], false⟩

/-- Result of resolving one stone pair. -/
structure PairResult where
  a : Stone
  b : Stone
  rewindTime : ℝ
  processed : Bool

/-- The body of the collision double loop for one (stoneA, stoneB) pair
(physics.js lines 562-669), after the launched/out guards: distance guard,
collision normal, bounded time rewind, residual-overlap positional
correction, normal impulse, tangential damping, spin transfer, stopped-latch
clearing, and re-advance by the rewound time. processed records whether the
pair got past the distance guard. -/
def resolvePairBody (e : Engine) (deltaSeconds : ℝ) (stoneA stoneB : Stone) : PairResult :=
  let radius := e.stoneRadius.getD 0.145
  let minDistance := radius * 2
  let restitution := max 0 (min e.collisionRestitution 1)
  let spinTransfer := max 0 e.collisionSpinTransfer
  let spinDamping := max 0 (min e.collisionSpinDamping 0.95)
  let tangentialLoss := max 0 (min e.collisionTangentialLoss 0.95)
  let dx0 := stoneB.position.x - stoneA.position.x
  let dy0 := stoneB.position.y - stoneA.position.y
  let distance0 := hypot dx0 dy0
  if distance0 ≥ minDistance ∧ distance0 > 0 then ⟨stoneA, stoneB, 0, false⟩
  else
    let normalX0 := if distance0 > COLLISION_EPSILON then dx0 / distance0 else 1
    let normalY0 := if distance0 > COLLISION_EPSILON then dy0 / distance0 else 0
    let relVelXInitial := stoneA.velocity.vx - stoneB.velocity.vx
    let relVelYInitial := stoneA.velocity.vy - stoneB.velocity.vy
    let relVelAlongNormal0 := relVelXInitial * normalX0 + relVelYInitial * normalY0
    let overlapInitial := max 0 (minDistance - distance0)
    let rewindTime :=
      if overlapInitial > COLLISION_EPSILON ∧ relVelAlongNormal0 < -SPEED_EPSILON ∧
          deltaSeconds ≠ 0 ∧ deltaSeconds > SPEED_EPSILON then
        min (overlapInitial / (-relVelAlongNormal0 + 1e-6)) deltaSeconds
      else 0
    let aPos1 :=
      if rewindTime > 0 then
        (⟨stoneA.position.x - stoneA.velocity.vx * rewindTime,
          stoneA.position.y - stoneA.velocity.vy * rewindTime⟩ : Point)
      else stoneA.position
    let bPos1 :=
      if rewindTime > 0 then
        (⟨stoneB.position.x - stoneB.velocity.vx * rewindTime,
          stoneB.position.y - stoneB.velocity.vy * rewindTime⟩ : Point)
      else stoneB.position
    let dx1 := bPos1.x - aPos1.x
    let dy1 := bPos1.y - aPos1.y
    let distance1 := hypot dx1 dy1
    let normalX := if rewindTime > 0 ∧ distance1 > COLLISION_EPSILON then dx1 / distance1 else normalX0
    let normalY := if rewindTime > 0 ∧ distance1 > COLLISION_EPSILON then dy1 / distance1 else normalY0
    let overlapAfterRewind := max 0 (minDistance - distance1)
    let corrected := rewindTime = 0 ∧ overlapAfterRewind > COLLISION_EPSILON
    let aPos2 :=
      if corrected then
        (⟨aPos1.x - normalX * (overlapAfterRewind * 0.5),
          aPos1.y - normalY * (overlapAfterRewind * 0.5)⟩ : Point)
      else aPos1
    let bPos2 :=
      if corrected then
        (⟨bPos1.x + normalX * (overlapAfterRewind * 0.5),
          bPos1.y + normalY * (overlapAfterRewind * 0.5)⟩ : Point)
      else bPos1
    let relVelAlongNormal := relVelXInitial * normalX + relVelYInitial * normalY
    let aVel1 :=
      if relVelAlongNormal > SPEED_EPSILON then
        (⟨stoneA.velocity.vx - (1 + restitution) * relVelAlongNormal * 0.5 * normalX,
          stoneA.velocity.vy - (1 + restitution) * relVelAlongNormal * 0.5 * normalY⟩ : Vel)
      else stoneA.velocity
    let bVel1 :=
      if relVelAlongNormal > SPEED_EPSILON then
        (⟨stoneB.velocity.vx + (1 + restitution) * relVelAlongNormal * 0.5 * normalX,
          stoneB.velocity.vy + (1 + restitution) * relVelAlongNormal * 0.5 * normalY⟩ : Vel)
      else stoneB.velocity
    let tangentX := -normalY
    let tangentY := normalX
    let relVelTangential := relVelXInitial * tangentX + relVelYInitial * tangentY
    let aVel2 :=
      if |relVelTangential| > SPEED_EPSILON ∧ tangentialLoss > 0 then
        (⟨aVel1.vx - relVelTangential * tangentialLoss * 0.5 * tangentX,
          aVel1.vy - relVelTangential * tangentialLoss * 0.5 * tangentY⟩ : Vel)
      else aVel1
    let bVel2 :=
      if |relVelTangential| > SPEED_EPSILON ∧ tangentialLoss > 0 then
        (⟨bVel1.vx + relVelTangential * tangentialLoss * 0.5 * tangentX,
          bVel1.vy + relVelTangential * tangentialLoss * 0.5 * tangentY⟩ : Vel)
      else bVel1
    let combinedTangential := relVelTangential + (stoneA.rotationRate - stoneB.rotationRate) * radius
    let spinHit := |combinedTangential| > SPEED_EPSILON ∧ spinTransfer > 0
    let angularDelta := combinedTangential / radius * spinTransfer * 0.5
    let aRot :=
      if spinHit then
        if spinDamping > 0 then (stoneA.rotationRate - angularDelta) * (1 - spinDamping)
        else stoneA.rotationRate - angularDelta
      else stoneA.rotationRate
    let bRot :=
      if spinHit then
        if spinDamping > 0 then (stoneB.rotationRate + angularDelta) * (1 - spinDamping)
        else stoneB.rotationRate + angularDelta
      else stoneB.rotationRate
    let aAct := if spinHit then true else stoneA.rotationActivated
    let bAct := if spinHit then true else stoneB.rotationActivated
    let aNotified := if |aRot| > 0 then false else stoneA.hasStoppedNotified
    let bNotified := if |bRot| > 0 then false else stoneB.hasStoppedNotified
    let aPos3 :=
      if rewindTime > 0 then
        (⟨aPos2.x + aVel2.vx * rewindTime, aPos2.y + aVel2.vy * rewindTime⟩ : Point)
      else aPos2
    let bPos3 :=
      if rewindTime > 0 then
        (⟨bPos2.x + bVel2.vx * rewindTime, bPos2.y + bVel2.vy * rewindTime⟩ : Point)
      else bPos2
    ⟨{ stoneA with position := aPos3, velocity := aVel2, rotationRate := aRot,
                   rotationActivated := aAct, hasStoppedNotified := aNotified },
     { stoneB with position := bPos3, velocity := bVel2, rotationRate := bRot,
                   rotationActivated := bAct, hasStoppedNotified := bNotified },
     rewindTime, true⟩

/-- The ordered unordered-pair index list of the double loop in
resolveCollisions: i ascending, j from i+1 ascending. -/
def pairIndices (n : ℕ) : List (ℕ × ℕ) :=
  (List.range n).flatMap (fun i => ((List.range n).drop (i + 1)).map (fun j => (i, j)))

/-- One pair step of resolveCollisions: the launched/out guards of the two
loops plus the pair body; a processed pair writes both stones back and is
recorded in the processed-pair list. -/
def resolvePairAt (e : Engine) (deltaSeconds : ℝ) (st : List Stone × List (ℕ × ℕ))
    (ij : ℕ × ℕ) : List Stone × List (ℕ × ℕ) :=
  match st.1[ij.1]?, st.1[ij.2]? with
  | some a, some b =>
    if a.isLaunched = false ∨ a.isOut = true ∨ b.isLaunched = false ∨ b.isOut = true then st
    else
      let pr := resolvePairBody e deltaSeconds a b
      if pr.processed then ((st.1.set ij.1 pr.a).set ij.2 pr.b, st.2 ++ [ij]) else st
  | _, _ => st

/-- resolveCollisions (physics.js lines 510-674) over a stone list; also
returns the list of pairs that got past the distance guard (the resolver's
boolean result is the non-emptiness of that list). A falsy (zero after the
0.145 fallback) radius skips the resolver entirely. -/
def resolveCollisions (e : Engine) (deltaSeconds : ℝ) (stones : List Stone) :
    List Stone × List (ℕ × ℕ) :=
  if e.stoneRadius.getD 0.145 = 0 then (stones, [])
  else (pairIndices stones.length).foldl (resolvePairAt e deltaSeconds) (stones, [])

/-- Result of one engine step. -/
structure StepResult where
  engine : Engine
  events : List Event
  collidedPairs : List (ℕ × ℕ)

/-- step (physics.js lines 203-324): the per-stone phase, the collision
resolver, and the idle transition when nothing is moving. -/
def step (e : Engine) (deltaSeconds now : ℝ) : StepResult :=
  let acc := stepAllStones e deltaSeconds now
  let resolved := resolveCollisions e deltaSeconds acc.stones
  let anyMoving := acc.moving || !resolved.2.isEmpty
  if anyMoving then
    ⟨{ e with stones := resolved.1, outTrayIndices := acc.trays }, acc.events, resolved.2⟩
  else
    ⟨{ e with stones := resolved.1, outTrayIndices := acc.trays,
              isActive := false, lastTimestamp := none }, acc.events, resolved.2⟩

/-- update (physics.js lines 187-201). The wall clock read inside the step is
the tick timestamp (both are performance.now() readings). -/
def update (e : Engine) (timestamp : ℝ) : Engine × List Event :=
  if e.isActive = false then ({ e with lastTimestamp := some timestamp }, [])
  else
    match e.lastTimestamp with
    | none => ({ e with lastTimestamp := some timestamp }, [])
    | some last =>
      let r := step { e with lastTimestamp := some timestamp } ((timestamp - last) / 1000) timestamp
      (r.engine, r.events)

/-- A stone registry lookup: findStone via the color:number keyed inventory
map. Repeated Map.set on the same key overwrites, so the lookup returns the
index of the last matching stone in registration order. -/
def findStoneIdx (stones : List Stone) (c : StoneColor) (n : ℤ) : Option ℕ :=
  (List.range stones.length).foldl
    (fun acc i =>
      match stones[i]? with
      | some s => if s.color = c ∧ s.number = n then some i else acc
      | none => acc)
    none

/-- The destructured argument object of throwStone. -/
structure ThrowArgs where
  color : Option StoneColor := none
  number : Option ℤ := none
  velocity : Option Vel := none
  rotationRadiansPerSecond : ℝ := 0
  angleRadians : ℝ := 0
  offsetX : ℝ := 0

/-- Outcome of throwStone: the engine after the call, the raised error if
any (the JS function throws; checks precede all mutations), the callbacks
fired, and the returned stone. -/
structure ThrowOutcome where
  engine : Engine
  error : Option String := none
  events : List Event := []
  stone : Option Stone := none

/-- throwStone (physics.js lines 135-178). now is the performance.now()
reading handed to onStoneReleased. -/
def throwStone (e : Engine) (args : ThrowArgs) (now : ℝ) : ThrowOutcome :=
  match args.velocity with
  | none => ⟨e, some ("Velocity is required to throw a stone."), [], none⟩
  | some v =>
    match args.color, args.number with
    | none, _ => ⟨e, some ("Color and stone number are required to throw a stone."), [], none⟩
    | some _, none => ⟨e, some ("Color and stone number are required to throw a stone."), [], none⟩
    | some c, some n =>
      match findStoneIdx e.stones c n with
      | none => ⟨e, some ("Stone is not registered."), [], none⟩
      | some idx =>
        match e.stones[idx]? with
        | none => ⟨e, some ("Stone is not registered."), [], none⟩
        | some stone =>
          if stone.isLaunched = true then ⟨e, some ("Stone has already been thrown."), [], none⟩
          else
            let s1 : Stone :=
              { stone with
                position := ⟨args.offsetX, e.launchY⟩
                velocity := ⟨v.vx, v.vy⟩
                pendingRotationRate := args.rotationRadiansPerSecond
                rotationRate := 0
                rotationActivated := decide (args.rotationRadiansPerSecond = 0)
                angle := args.angleRadians
                isLaunched := true
                isOut := false
                hasStoppedNotified := false }
            let s2 := attachTiming (resetStonePath s1)
            ⟨{ e with stones := e.stones.set idx s2, isActive := true, lastTimestamp := none },
             none, [Event.released now], some s2⟩

/-- One entry of the initializeStones config list. -/
structure StoneConfig where
  position : Option Point := none
  color : Option StoneColor := none
  number : Option ℤ := none

/-- initializeStones (physics.js lines 97-124): clears the registry and
builds fresh stones from the configs. -/
def initializeStones (e : Engine) (configs : List StoneConfig) : Engine :=
  let mk := fun (c : StoneConfig) =>
    let base : Stone :=
      { position := c.position.getD ⟨0, 0⟩
        velocity := ⟨0, 0⟩
        rotationRate := 0
        pendingRotationRate := 0
        angle := 0
        color := c.color.getD StoneColor.red
        number := c.number.getD 0
        isLaunched := false
        isOut := false
        rotationActivated := false
        hasStoppedNotified := true
        hogTiming := {}
        pathSamples := []
        pathSampleTimer := 0 }
    attachTiming (resetStonePath base)
  { e with stones := configs.map mk, isActive := false, lastTimestamp := none }

/-! Shared evaluation helpers. -/

theorem hypot_nonneg (x y : ℝ) : 0 ≤ hypot x y := Real.sqrt_nonneg _

theorem hypot_zero : hypot 0 0 = 0 := by
  unfold hypot
  norm_num

theorem hypot_zero_left (y : ℝ) (hy : 0 ≤ y) : hypot 0 y = y := by
  unfold hypot
  rw [zero_mul, zero_add, Real.sqrt_mul_self hy]

theorem hypot_left_zero (x : ℝ) (hx : 0 ≤ x) : hypot x 0 = x := by
  unfold hypot
  rw [mul_zero, add_zero, Real.sqrt_mul_self hx]

theorem jsign_eq_zero_iff (x : ℝ) : jsign x = 0 ↔ x = 0 := by
  unfold jsign
  rcases lt_trichotomy x 0 with h | h | h
  · rw [if_pos h]
    constructor
    · intro h1
      norm_num at h1
    · intro h1
      exact absurd h1 h.ne
  · simp [h]
  · rw [if_neg (not_lt.2 h.le), if_pos h]
    constructor
    · intro h1
      norm_num at h1
    · intro h1
      exact absurd h1 h.ne'

theorem jsign_of_pos {x : ℝ} (h : 0 < x) : jsign x = 1 := by
  unfold jsign
  rw [if_neg (not_lt.2 h.le), if_pos h]

theorem jsign_of_neg {x : ℝ} (h : x < 0) : jsign x = -1 := by
  unfold jsign
  rw [if_pos h]

/-! Claim C8: configurability of the path-sampling parameters. -/

/-- C8 counterexample: a constructor invocation that supplies
pathSampleInterval = 2 and maxPathSamples = 10 gets an engine whose path
sampling uses neither supplied value: both are fixed to the defaults
(1.0 s and 240), because the constructor's destructuring pattern does not
bind these keys and lines 77-78 assign the module constants. -/
theorem c8_path_config_ignored :
    (mkEngine { pathSampleInterval := some 2, maxPathSamples := some 10 }).pathSampleInterval ≠ 2 ∧
    (mkEngine { pathSampleInterval := some 2, maxPathSamples := some 10 }).maxPathSamples ≠ 10 := by
  constructor
  · show DEFAULT_PATH_SAMPLE_INTERVAL ≠ 2
    unfold DEFAULT_PATH_SAMPLE_INTERVAL
    norm_num
  · show MAX_PATH_SAMPLE_POINTS ≠ 10
    unfold MAX_PATH_SAMPLE_POINTS
    norm_num

/-- C8 (amended): the path-sample interval and the maximum number of path
samples are not construction configuration: for every constructor
invocation the engine's path sampling uses the fixed defaults (1.0 second
and 240 points), and any supplied values for them are ignored. -/
theorem c8_path_constants_fixed (cfg : EngineConfig) :
    (mkEngine cfg).pathSampleInterval = DEFAULT_PATH_SAMPLE_INTERVAL ∧
    (mkEngine cfg).maxPathSamples = MAX_PATH_SAMPLE_POINTS :=
  ⟨rfl, rfl⟩

/-! Claim C9: throwStone is atomic on failure. -/

/-- C9: throwStone is atomic on failure: whenever it raises an error, the
engine (its stone collection, active flag, timestamp baseline, out-tray
indices) is returned unchanged, no callback fires, and no stone is
returned. All four precondition checks precede every mutation in the
function body. -/
theorem c9_throwStone_atomic (e : Engine) (args : ThrowArgs) (now : ℝ)
    (h : (throwStone e args now).error.isSome = true) :
    (throwStone e args now).engine = e ∧ (throwStone e args now).events = [] ∧
    (throwStone e args now).stone = none := by
  rcases hv : args.velocity with _ | v
  · simp [throwStone, hv]
  · rcases hc : args.color with _ | c
    · simp [throwStone, hv, hc]
    · rcases hn : args.number with _ | n
      · simp [throwStone, hv, hc, hn]
      · rcases hf : findStoneIdx e.stones c n with _ | idx
        · simp [throwStone, hv, hc, hn, hf]
        · rcases hg : e.stones[idx]? with _ | st
          · simp [throwStone, hv, hc, hn, hf, hg]
          · by_cases hl : st.isLaunched = true
            · simp [throwStone, hv, hc, hn, hf, hg, hl]
            · exfalso
              simp [throwStone, hv, hc, hn, hf, hg, hl] at h

/-- C9 witness: a concrete failing call (missing velocity) leaves the engine
untouched and fires nothing. -/
theorem c9_throwStone_atomic_witness :
    (throwStone (mkEngine {}) { velocity := none } 0).error.isSome = true ∧
    (throwStone (mkEngine {}) { velocity := none } 0).engine = mkEngine {} ∧
    (throwStone (mkEngine {}) { velocity := none } 0).events = [] ∧
    (throwStone (mkEngine {}) { velocity := none } 0).stone = none := by
  refine ⟨rfl, ?_⟩
  have := c9_throwStone_atomic (mkEngine {}) { velocity := none } 0 rfl
  exact this

/-! Claim C6: the throwStone error conditions. -/

/-- findStone composed with the inventory fetch: the stone registered under
(color, number), if any. -/
def lookupStone (e : Engine) (c : StoneColor) (n : ℤ) : Option Stone :=
  match findStoneIdx e.stones c n with
  | none => none
  | some i => e.stones[i]?

/-- A baseline stone record for concrete instances. -/
def blankStone : Stone where
  position := ⟨0, 0⟩
  velocity := ⟨0, 0⟩
  rotationRate := 0
  pendingRotationRate := 0
  angle := 0
  color := StoneColor.red
  number := 0
  isLaunched := false
  isOut := false
  rotationActivated := false
  hasStoppedNotified := false
  hogTiming := {}
  pathSamples := []
  pathSampleTimer := 0

/-- C6: throwStone raises an error precisely when the velocity argument is
absent, the color or number argument is absent, the (color, number) pair is
not a registered stone, or that stone is already launched. On success it
returns the stone, positioned at the launch line with the given x offset,
spin deferred to pending activation, out and stopped flags cleared, path
trace reset, the release notification firedand the engine Active. (Every
other public operation is a total function in this model, mirroring the
absence of any other throw statement in the engine.) -/
theorem c6_throwStone_error_iff (e : Engine) (args : ThrowArgs) (now : ℝ) :
    ((throwStone e args now).error ≠ none ↔
      args.velocity = none ∨ args.color = none ∨ args.number = none ∨
      (∃ c n, args.color = some c ∧ args.number = some n ∧
        (lookupStone e c n = none ∨
         ∃ st, lookupStone e c n = some st ∧ st.isLaunched = true))) ∧
    ((throwStone e args now).error = none →
      ∃ st, (throwStone e args now).stone = some st ∧
        st.position = ⟨args.offsetX, e.launchY⟩ ∧
        st.rotationRate = 0 ∧
        st.pendingRotationRate = args.rotationRadiansPerSecond ∧
        st.isLaunched = true ∧ st.isOut = false ∧ st.hasStoppedNotified = false ∧
        st.pathSamples = [st.position] ∧ st.pathSampleTimer = 0 ∧
        st.hogTiming = { nearCrossedAt := none, farCrossedAt := none } ∧
        (throwStone e args now).events = [Event.released now] ∧
        (throwStone e args now).engine.isActive = true) := by
  rcases hv : args.velocity with _ | v
  · simp [throwStone, hv]
  · rcases hc : args.color with _ | c
    · simp [throwStone, hv, hc]
    · rcases hn : args.number with _ | n
      · simp [throwStone, hv, hc, hn]
      · rcases hf : findStoneIdx e.stones c n with _ | idx
        · simp [throwStone, lookupStone, hv, hc, hn, hf]
        · rcases hg : e.stones[idx]? with _ | st
          · simp [throwStone, lookupStone, hv, hc, hn, hf, hg]
          · by_cases hl : st.isLaunched = true
            · simp [throwStone, lookupStone, hv, hc, hn, hf, hg, hl]
            · constructor
              · simp [throwStone, lookupStone, hv, hc, hn, hf, hg, hl]
              · intro _
                refine ⟨attachTiming (resetStonePath
                  { st with
                    position := ⟨args.offsetX, e.launchY⟩
                    velocity := ⟨v.vx, v.vy⟩
                    pendingRotationRate := args.rotationRadiansPerSecond
                    rotationRate := 0
                    rotationActivated := decide (args.rotationRadiansPerSecond = 0)
                    angle := args.angleRadians
                    isLaunched := true
                    isOut := false
                    hasStoppedNotified := false }), ?_, ?_⟩
                · simp [throwStone, hv, hc, hn, hf, hg, hl]
                · simp [throwStone, attachTiming, resetStonePath, hv, hc, hn, hf, hg, hl]

/-- An engine holding one registered, unlaunched red stone number 1. -/
def c6wEngine : Engine :=
  { mkEngine { launchY := 3 } with stones := [{ blankStone with number := 1 }] }

/-- Valid arguments for throwing that stone. -/
def c6wArgs : ThrowArgs :=
  { color := some StoneColor.red, number := some 1, velocity := some ⟨0, 2⟩, offsetX := 0.25 }

/-- C6 witness: a concrete successful throw fires the release notification
and activates the engine. -/
theorem c6_throwStone_error_iff_witness :
    (throwStone c6wEngine c6wArgs 5).error = none ∧
    (throwStone c6wEngine c6wArgs 5).events = [Event.released 5] ∧
    (throwStone c6wEngine c6wArgs 5).engine.isActive = true := by
  have herr : (throwStone c6wEngine c6wArgs 5).error = none := by rfl
  obtain ⟨st, _, _, _, _, _, _, _, _, _, _, hev, hact⟩ :=
    (c6_throwStone_error_iff c6wEngine c6wArgs 5).2 herr
  exact ⟨herr, hev, hact⟩

/-! Claim C4: the curl model. -/

theorem jsign_mul_self (x : ℝ) : jsign x * x = |x| := by
  unfold jsign
  rcases lt_trichotomy x 0 with h | h | h
  · rw [if_pos h, abs_of_neg h]
    ring
  · simp [h]
  · rw [if_neg (not_lt.2 h.le), if_pos h, abs_of_pos h]
    ring

theorem clamp_bounds (M x : ℝ) (hM : 0 ≤ M) :
    -M ≤ max (-M) (min M x) ∧ max (-M) (min M x) ≤ M :=
  ⟨le_max_left _ _, max_le (by linarith) (min_le_left _ _)⟩

theorem clamp_mul_neg {M x w : ℝ} (hM : 0 < M) (h : x * w < 0) :
    max (-M) (min M x) * w < 0 := by
  rcases lt_trichotomy x 0 with hx | hx | hx
  · have hw : 0 < w := by
      by_contra hw
      push_neg at hw
      nlinarith
    have hc : max (-M) (min M x) < 0 :=
      max_lt (by linarith) (lt_of_le_of_lt (min_le_right M x) hx)
    exact mul_neg_of_neg_of_pos hc hw
  · rw [hx, zero_mul] at h
    exact absurd h (lt_irrefl 0)
  · have hw : w < 0 := by
      by_contra hw
      push_neg at hw
      nlinarith
    have hc : 0 < max (-M) (min M x) := lt_max_iff.mpr (Or.inr (lt_min hM hx))
    exact mul_neg_of_pos_of_neg hc hw

/-- C4 (amended): computeCurlHeadingDelta returns 0 unless the spin magnitude
is at least (not strictly above) the minimum-omega threshold; whenever the
delta is nonzero its sign is opposite the spin sign (for a nonnegative curl
asymmetry, as configured); and the delta always lies within
[-0.35, 0.35] radians. -/
theorem c4_curl_heading_delta (e : Engine) (s : Stone) (speed displacement : ℝ)
    (dt : Option ℝ) (hasym : 0 ≤ e.curlAsymmetry) :
    (|s.rotationRate| < e.curlMinOmega →
      computeCurlHeadingDelta e s speed displacement dt = 0) ∧
    (computeCurlHeadingDelta e s speed displacement dt ≠ 0 →
      computeCurlHeadingDelta e s speed displacement dt * s.rotationRate < 0) ∧
    -MAX_DELTA ≤ computeCurlHeadingDelta e s speed displacement dt ∧
    computeCurlHeadingDelta e s speed displacement dt ≤ MAX_DELTA := by
  have hM : (0:ℝ) < MAX_DELTA := by norm_num [MAX_DELTA]
  have heps : (0:ℝ) < SPEED_EPSILON := by norm_num [SPEED_EPSILON]
  have key : computeCurlHeadingDelta e s speed displacement dt = 0 ∨
      (∃ x, computeCurlHeadingDelta e s speed displacement dt = max (-MAX_DELTA) (min MAX_DELTA x) ∧
        x * s.rotationRate < 0) := by
    by_cases h1 : jsign s.rotationRate = 0 ∨ |s.rotationRate| < e.curlMinOmega
    · left
      simp only [computeCurlHeadingDelta]
      rw [if_pos h1]
    · by_cases h2 : max speed e.curlMinSpeed ≤ SPEED_EPSILON
      · left
        simp only [computeCurlHeadingDelta]
        rw [if_neg h1, if_pos h2]
      · by_cases h3 :
            min (|s.rotationRate| / max e.curlRotationReference SPEED_EPSILON) 1 ≤ 0
        · left
          simp only [computeCurlHeadingDelta]
          rw [if_neg h1, if_neg h2, if_pos h3]
        · push_neg at h1 h2 h3
          obtain ⟨h1s, h1m⟩ := h1
          have homega : s.rotationRate ≠ 0 := fun h0 => h1s ((jsign_eq_zero_iff _).mpr h0)
          have heff : (0:ℝ) < max speed e.curlMinSpeed := lt_trans heps h2
          have hbias : (0:ℝ) ≤ max e.curlVelocityBias 0 := le_max_right _ _
          have hsum : (0:ℝ) < max speed e.curlMinSpeed + max e.curlVelocityBias 0 := by linarith
          set T := (match dt with
            | some d => d
            | none => if displacement > 0 then
                displacement / max (max speed e.curlMinSpeed) SPEED_EPSILON else 0 : ℝ) with hT
          by_cases h4 : T ≤ 0
          · left
            simp only [computeCurlHeadingDelta]
            rw [if_neg (by push_neg; exact ⟨h1s, h1m⟩), if_neg (not_le.2 h2),
              if_neg (not_le.2 h3), ← hT, if_pos h4]
          · push_neg at h4
            by_cases hA : e.curlAsymmetry = 0
            · left
              simp only [computeCurlHeadingDelta]
              rw [if_neg (by push_neg; exact ⟨h1s, h1m⟩), if_neg (not_le.2 h2),
                if_neg (not_le.2 h3), ← hT, if_neg (not_le.2 h4), hA]
              rw [show GRAVITY * 0 * -jsign s.rotationRate *
                  min (|s.rotationRate| / max e.curlRotationReference SPEED_EPSILON) 1 *
                  (1 / (max speed e.curlMinSpeed + max e.curlVelocityBias 0)) /
                  max speed e.curlMinSpeed * T = 0 by ring]
              rw [min_eq_right hM.le, max_eq_right (by linarith)]
            · right
              have hA2 : 0 < e.curlAsymmetry := lt_of_le_of_ne hasym (Ne.symm hA)
              refine ⟨GRAVITY * e.curlAsymmetry * -jsign s.rotationRate *
                  min (|s.rotationRate| / max e.curlRotationReference SPEED_EPSILON) 1 *
                  (1 / (max speed e.curlMinSpeed + max e.curlVelocityBias 0)) /
                  max speed e.curlMinSpeed * T, ?_, ?_⟩
              · simp only [computeCurlHeadingDelta]
                rw [if_neg (by push_neg; exact ⟨h1s, h1m⟩), if_neg (not_le.2 h2),
                  if_neg (not_le.2 h3), ← hT, if_neg (not_le.2 h4)]
              · have hG : (0:ℝ) < GRAVITY := by norm_num [GRAVITY]
                have hprod : 0 < GRAVITY * e.curlAsymmetry *
                    min (|s.rotationRate| / max e.curlRotationReference SPEED_EPSILON) 1 *
                    (1 / (max speed e.curlMinSpeed + max e.curlVelocityBias 0)) /
                    max speed e.curlMinSpeed * T := by
                  apply mul_pos
                  apply div_pos
                  apply mul_pos
                  apply mul_pos
                  exact mul_pos hG hA2
                  exact h3
                  exact one_div_pos.mpr hsum
                  exact heff
                  exact h4
                have habs : 0 < |s.rotationRate| := abs_pos.mpr homega
                calc GRAVITY * e.curlAsymmetry * -jsign s.rotationRate *
                      min (|s.rotationRate| / max e.curlRotationReference SPEED_EPSILON) 1 *
                      (1 / (max speed e.curlMinSpeed + max e.curlVelocityBias 0)) /
                      max speed e.curlMinSpeed * T * s.rotationRate
                    = -(GRAVITY * e.curlAsymmetry *
                        min (|s.rotationRate| / max e.curlRotationReference SPEED_EPSILON) 1 *
                        (1 / (max speed e.curlMinSpeed + max e.curlVelocityBias 0)) /
                        max speed e.curlMinSpeed * T) * (jsign s.rotationRate * s.rotationRate) := by
                      ring
                  _ = -(GRAVITY * e.curlAsymmetry *
                        min (|s.rotationRate| / max e.curlRotationReference SPEED_EPSILON) 1 *
                        (1 / (max speed e.curlMinSpeed + max e.curlVelocityBias 0)) /
                        max speed e.curlMinSpeed * T) * |s.rotationRate| := by
                      rw [jsign_mul_self]
                  _ < 0 := by
                      apply mul_neg_of_neg_of_pos _ habs
                      linarith
  refine ⟨?_, ?_, ?_⟩
  · intro h
    simp only [computeCurlHeadingDelta]
    rw [if_pos (Or.inr h)]
  · intro hne
    rcases key with h0 | ⟨x, hx, hsign⟩
    · exact absurd h0 hne
    · rw [hx]
      exact clamp_mul_neg hM hsign
  · rcases key with h0 | ⟨x, hx, _⟩
    · rw [h0]
      constructor <;> linarith
    · rw [hx]
      exact clamp_bounds _ _ hM.le

/-- C4 counterexample: with the default configuration, a stone spinning at
exactly the minimum-omega threshold (0.05 rad/s) does NOT exceed the
threshold, yet the curl delta is nonzero (the code's guard is a strict
less-than, so equality activates the curl). -/
theorem c4_curl_threshold_counterexample :
    ¬ (|({ blankStone with rotationRate := 0.05 } : Stone).rotationRate| >
        (mkEngine {}).curlMinOmega) ∧
    computeCurlHeadingDelta (mkEngine {}) { blankStone with rotationRate := 0.05 }
      1 0 (some 1) ≠ 0 := by
  constructor
  · norm_num [mkEngine, blankStone, DEFAULT_CURL_MIN_OMEGA, abs_of_nonneg]
  · norm_num [computeCurlHeadingDelta, mkEngine, blankStone, jsign_of_pos, MAX_DELTA,
      SPEED_EPSILON, GRAVITY, DEFAULT_CURL_MIN_OMEGA, DEFAULT_CURL_MIN_SPEED,
      DEFAULT_CURL_ROTATION_REFERENCE, DEFAULT_CURL_ASYMMETRY,
      DEFAULT_CURL_VELOCITY_BIAS, abs_of_nonneg, max_def, min_def]

/-- C4 witness: the amended theorem instantiated at the default engine and a
non-spinning stone. -/
theorem c4_curl_heading_delta_witness :
    (0:ℝ) ≤ (mkEngine {}).curlAsymmetry ∧
    ((|blankStone.rotationRate| < (mkEngine {}).curlMinOmega →
      computeCurlHeadingDelta (mkEngine {}) blankStone 1 0 (some 1) = 0) ∧
     (computeCurlHeadingDelta (mkEngine {}) blankStone 1 0 (some 1) ≠ 0 →
      computeCurlHeadingDelta (mkEngine {}) blankStone 1 0 (some 1) *
        blankStone.rotationRate < 0) ∧
     -MAX_DELTA ≤ computeCurlHeadingDelta (mkEngine {}) blankStone 1 0 (some 1) ∧
     computeCurlHeadingDelta (mkEngine {}) blankStone 1 0 (some 1) ≤ MAX_DELTA) :=
  ⟨by norm_num [mkEngine, DEFAULT_CURL_ASYMMETRY],
   c4_curl_heading_delta (mkEngine {}) blankStone 1 0 (some 1)
     (by norm_num [mkEngine, DEFAULT_CURL_ASYMMETRY])⟩

/-! Claim C7: the path-sample cap. -/

theorem trimList_length_le (cap : ℕ) (l : List Point) (hcap : 1 ≤ cap) :
    (trimList cap l).length ≤ cap := by
  unfold trimList
  rw [if_neg (by omega)]
  by_cases h : cap < l.length
  · rw [if_pos h, List.length_drop]
    omega
  · rw [if_neg h]
    omega

theorem trimList_evicts (cap : ℕ) (l : List Point) (pt : Point)
    (h : l.length = cap) (hcap : 1 ≤ cap) :
    trimList cap (l ++ [pt]) = l.drop 1 ++ [pt] := by
  unfold trimList
  rw [if_neg (by omega), if_pos (by simp; omega)]
  rw [List.drop_append_of_le_length (by simp; omega)]
  congr 1
  congr 1
  simp [h]

theorem pushLoop_length_le (cap : ℕ) (pt : Point) (n : ℕ) (l : List Point)
    (hcap : 1 ≤ cap) (h : l.length ≤ cap) :
    (pushLoop cap pt n l).length ≤ cap := by
  induction n generalizing l with
  | zero => exact h
  | succ m ih =>
    unfold pushLoop
    exact ih _ (trimList_length_le cap _ hcap)

theorem pathSampleEffect_length_le (e : Engine) (s : Stone)
    (deltaSeconds displacement : ℝ) (hcap : 1 ≤ e.maxPathSamples)
    (h : s.pathSamples.length ≤ e.maxPathSamples) :
    (pathSampleEffect e s deltaSeconds displacement).1.length ≤ e.maxPathSamples := by
  unfold pathSampleEffect
  by_cases hm : displacement > 0 ∧ deltaSeconds > 0
  · rw [if_pos hm]
    exact pushLoop_length_le _ _ _ _ hcap h
  · rw [if_neg hm]
    unfold appendTerminalList
    rcases hl : s.pathSamples.getLast? with _ | last
    · simpa using hcap
    · dsimp only
      by_cases hp : last.x ≠ s.position.x ∨ last.y ≠ s.position.y
      · rw [if_pos hp]
        exact trimList_length_le _ _ hcap
      · rw [if_neg hp]
        exact h

theorem recordStonePathSample_length_le (e : Engine) (s : Stone)
    (deltaSeconds displacement : ℝ) (hcap : 1 ≤ e.maxPathSamples)
    (h : s.pathSamples.length ≤ e.maxPathSamples) :
    (recordStonePathSample e s deltaSeconds displacement).pathSamples.length ≤
      e.maxPathSamples := by
  show (pathSampleEffect e s deltaSeconds displacement).1.length ≤ e.maxPathSamples
  exact pathSampleEffect_length_le e s deltaSeconds displacement hcap h

/-- C7: the path trace never exceeds the configured cap, and appending at
the cap evicts exactly the oldest point. Every operation that grows the
trace (the sampling loop and the terminal point) trims immediately after
each push; resetting the trace yields one point; and every constructed
engine has a positive cap (240), so the invariant holds at every reachable
state. -/
theorem c7_path_samples_cap (e : Engine) (s : Stone) (deltaSeconds displacement : ℝ)
    (pt : Point) (hcap : 1 ≤ e.maxPathSamples)
    (hlen : s.pathSamples.length ≤ e.maxPathSamples) :
    (recordStonePathSample e s deltaSeconds displacement).pathSamples.length ≤
        e.maxPathSamples ∧
    (resetStonePath s).pathSamples.length ≤ e.maxPathSamples ∧
    (s.pathSamples.length = e.maxPathSamples →
      (trimPathSamples e { s with pathSamples := s.pathSamples ++ [pt] }).pathSamples =
        s.pathSamples.drop 1 ++ [pt]) ∧
    (∀ cfg : EngineConfig, 1 ≤ (mkEngine cfg).maxPathSamples) := by
  refine ⟨recordStonePathSample_length_le e s deltaSeconds displacement hcap hlen, ?_, ?_, ?_⟩
  · simpa [resetStonePath] using hcap
  · intro hfull
    unfold trimPathSamples
    exact trimList_evicts _ _ _ hfull hcap
  · intro cfg
    show 1 ≤ MAX_PATH_SAMPLE_POINTS
    norm_num [MAX_PATH_SAMPLE_POINTS]

/-- C7 witness: a stone whose trace is exactly at the cap of the default
engine (240 points). -/
theorem c7_path_samples_cap_witness :
    1 ≤ (mkEngine {}).maxPathSamples ∧
    ({ blankStone with pathSamples := List.replicate 240 ⟨0, 0⟩ } : Stone).pathSamples.length ≤
      (mkEngine {}).maxPathSamples ∧
    ((recordStonePathSample (mkEngine {})
        { blankStone with pathSamples := List.replicate 240 ⟨0, 0⟩ } 1 0).pathSamples.length ≤
        (mkEngine {}).maxPathSamples ∧
     (resetStonePath { blankStone with pathSamples := List.replicate 240 ⟨0, 0⟩ }).pathSamples.length ≤
        (mkEngine {}).maxPathSamples ∧
     (({ blankStone with pathSamples := List.replicate 240 ⟨0, 0⟩ } : Stone).pathSamples.length =
        (mkEngine {}).maxPathSamples →
       (trimPathSamples (mkEngine {})
         { blankStone with pathSamples := List.replicate 240 (⟨0, 0⟩ : Point) ++ [(⟨1, 1⟩ : Point)] }).pathSamples =
         (List.replicate 240 (⟨0, 0⟩ : Point)).drop 1 ++ [(⟨1, 1⟩ : Point)]) ∧
     (∀ cfg : EngineConfig, 1 ≤ (mkEngine cfg).maxPathSamples)) := by
  have hcap : 1 ≤ (mkEngine {}).maxPathSamples := by
    show 1 ≤ MAX_PATH_SAMPLE_POINTS
    norm_num [MAX_PATH_SAMPLE_POINTS]
  have hlen : ({ blankStone with pathSamples := List.replicate 240 ⟨0, 0⟩ } : Stone).pathSamples.length ≤
      (mkEngine {}).maxPathSamples := by
    show (List.replicate 240 (⟨0, 0⟩ : Point)).length ≤ MAX_PATH_SAMPLE_POINTS
    rw [List.length_replicate]
    norm_num [MAX_PATH_SAMPLE_POINTS]
  exact ⟨hcap, hlen,
    c7_path_samples_cap (mkEngine {}) { blankStone with pathSamples := List.replicate 240 ⟨0, 0⟩ }
      1 0 ⟨1, 1⟩ hcap hlen⟩

/-! Claim C5: hog-line timing. -/

/-- Number of near-cross notifications in an event list. -/
def countNear (evs : List Event) : ℕ :=
  (evs.filter fun ev => match ev with | Event.hogNearCross => true | _ => false).length

/-- Number of split notifications in an event list. -/
def countSplit (evs : List Event) : ℕ :=
  (evs.filter fun ev => match ev with | Event.hogSplit _ => true | _ => false).length

/-- Run the hog-line check over a trace of steps; each trace entry carries
the previous y, the stone's new y (set by the integrator before the check),
and the wall-clock reading. -/
def runHogTrace (e : Engine) (s : Stone) : List (ℝ × ℝ × ℝ) → Stone × List Event
  | [] => (s, [])
  | (prevY, curY, now) :: rest =>
    let r := checkHogLineCrossings e { s with position := ⟨s.position.x, curY⟩ } prevY now
    let r2 := runHogTrace e r.1 rest
    (r2.1, r.2 ++ r2.2)

theorem countNear_append (a b : List Event) :
    countNear (a ++ b) = countNear a + countNear b := by
  simp [countNear, List.filter_append]

theorem countSplit_append (a b : List Event) :
    countSplit (a ++ b) = countSplit a + countSplit b := by
  simp [countSplit, List.filter_append]

theorem hog_call_facts (e : Engine) (s : Stone) (prevY now : ℝ) :
    countNear (checkHogLineCrossings e s prevY now).2 ≤
      (if s.hogTiming.nearCrossedAt = none then 1 else 0) ∧
    countSplit (checkHogLineCrossings e s prevY now).2 ≤
      (if s.hogTiming.farCrossedAt = none then 1 else 0) ∧
    ((checkHogLineCrossings e s prevY now).1.hogTiming.nearCrossedAt = none →
      countNear (checkHogLineCrossings e s prevY now).2 = 0) ∧
    ((checkHogLineCrossings e s prevY now).1.hogTiming.farCrossedAt = none →
      countSplit (checkHogLineCrossings e s prevY now).2 = 0) ∧
    (∀ t, s.hogTiming.nearCrossedAt = some t →
      (checkHogLineCrossings e s prevY now).1.hogTiming.nearCrossedAt = some t) ∧
    (∀ t, s.hogTiming.farCrossedAt = some t →
      (checkHogLineCrossings e s prevY now).1.hogTiming.farCrossedAt = some t) := by
  rcases hnear : s.hogTiming.nearCrossedAt with _ | t1 <;>
    rcases hfar : s.hogTiming.farCrossedAt with _ | t2 <;>
    by_cases hcn : crossesLine e.hogLineNear prevY s.position.y <;>
    by_cases hcf : crossesLine e.hogLineFar prevY s.position.y <;>
    simp [checkHogLineCrossings, hogCrossEffect, hnear, hfar, hcn, hcf, countNear, countSplit,
      List.filter_cons, List.filter_nil]

theorem runHogTrace_counts (e : Engine) (tr : List (ℝ × ℝ × ℝ)) :
    ∀ s : Stone,
      countNear (runHogTrace e s tr).2 ≤ (if s.hogTiming.nearCrossedAt = none then 1 else 0) ∧
      countSplit (runHogTrace e s tr).2 ≤ (if s.hogTiming.farCrossedAt = none then 1 else 0) := by
  induction tr with
  | nil =>
    intro s
    constructor <;> · simp [runHogTrace, countNear, countSplit]
  | cons hd rest ih =>
    intro s
    obtain ⟨p, c, n⟩ := hd
    have hsame : ({ s with position := ⟨s.position.x, c⟩ } : Stone).hogTiming = s.hogTiming := rfl
    have hf := hog_call_facts e { s with position := ⟨s.position.x, c⟩ } p n
    rw [hsame] at hf
    obtain ⟨hf1, hf2, hf3, hf4, hf5, hf6⟩ := hf
    have hrest := ih (checkHogLineCrossings e { s with position := ⟨s.position.x, c⟩ } p n).1
    obtain ⟨hr1, hr2⟩ := hrest
    constructor
    · show countNear (runHogTrace e s ((p, c, n) :: rest)).2 ≤ _
      rw [runHogTrace]
      rw [countNear_append]
      by_cases hnone : s.hogTiming.nearCrossedAt = none
      · rw [if_pos hnone] at hf1 ⊢
        by_cases hafter :
            (checkHogLineCrossings e { s with position := ⟨s.position.x, c⟩ } p n).1.hogTiming.nearCrossedAt = none
        · have h0 := hf3 hafter
          rw [if_pos hafter] at hr1
          omega
        · rw [if_neg hafter] at hr1
          omega
      · rw [if_neg hnone] at hf1 ⊢
        obtain ⟨t, ht⟩ := Option.ne_none_iff_exists'.mp hnone
        rw [if_neg (by rw [hf5 t ht]; simp)] at hr1
        omega
    · show countSplit (runHogTrace e s ((p, c, n) :: rest)).2 ≤ _
      rw [runHogTrace]
      rw [countSplit_append]
      by_cases hnone : s.hogTiming.farCrossedAt = none
      · rw [if_pos hnone] at hf2 ⊢
        by_cases hafter :
            (checkHogLineCrossings e { s with position := ⟨s.position.x, c⟩ } p n).1.hogTiming.farCrossedAt = none
        · have h0 := hf4 hafter
          rw [if_pos hafter] at hr2
          omega
        · rw [if_neg hafter] at hr2
          omega
      · rw [if_neg hnone] at hf2 ⊢
        obtain ⟨t, ht⟩ := Option.ne_none_iff_exists'.mp hnone
        rw [if_neg (by rw [hf6 t ht]; simp)] at hr2
        omega

/-- C5: every throw resets both hog timestamps to null; the first crossing
of the near hog line (a sign change of previous vs. current y about the
line) records the wall-clock time and fires the near-cross notification;
the first crossing of the far line after a recorded near crossing records a
second timestamp and fires the split notification carrying the elapsed time
between the two timestamps; and over any trace of steps within one throw
each of the two notifications fires at most once. -/
theorem c5_hog_line_timing (e : Engine) :
    (∀ (args : ThrowArgs) (now : ℝ) (st : Stone),
      (throwStone e args now).stone = some st →
      st.hogTiming = { nearCrossedAt := none, farCrossedAt := none }) ∧
    (∀ (s : Stone) (prevY now : ℝ),
      s.hogTiming.nearCrossedAt = none →
      crossesLine e.hogLineNear prevY s.position.y →
      (checkHogLineCrossings e s prevY now).1.hogTiming.nearCrossedAt = some now ∧
      Event.hogNearCross ∈ (checkHogLineCrossings e s prevY now).2) ∧
    (∀ (s : Stone) (prevY now t1 : ℝ),
      s.hogTiming.nearCrossedAt = some t1 →
      s.hogTiming.farCrossedAt = none →
      crossesLine e.hogLineFar prevY s.position.y →
      (checkHogLineCrossings e s prevY now).1.hogTiming.farCrossedAt = some now ∧
      Event.hogSplit (now - t1) ∈ (checkHogLineCrossings e s prevY now).2) ∧
    (∀ (s : Stone) (tr : List (ℝ × ℝ × ℝ)),
      countNear (runHogTrace e s tr).2 ≤ (if s.hogTiming.nearCrossedAt = none then 1 else 0) ∧
      countSplit (runHogTrace e s tr).2 ≤ (if s.hogTiming.farCrossedAt = none then 1 else 0)) := by
  refine ⟨?_, ?_, ?_, fun s tr => runHogTrace_counts e tr s⟩
  · intro args now st hst
    rcases hv : args.velocity with _ | v
    · simp [throwStone, hv] at hst
    · rcases hc : args.color with _ | c
      · simp [throwStone, hv, hc] at hst
      · rcases hn : args.number with _ | n
        · simp [throwStone, hv, hc, hn] at hst
        · rcases hf : findStoneIdx e.stones c n with _ | idx
          · simp [throwStone, hv, hc, hn, hf] at hst
          · rcases hg : e.stones[idx]? with _ | stone0
            · simp [throwStone, hv, hc, hn, hf, hg] at hst
            · by_cases hl : stone0.isLaunched = true
              · simp [throwStone, hv, hc, hn, hf, hg, hl] at hst
              · simp [throwStone, hv, hc, hn, hf, hg, hl] at hst
                rw [← hst]
                rfl
  · intro s prevY now hnone hcross
    rcases hfar : s.hogTiming.farCrossedAt with _ | t2 <;>
      by_cases hcf : crossesLine e.hogLineFar prevY s.position.y <;>
      simp [checkHogLineCrossings, hogCrossEffect, hnone, hcross, hfar, hcf]
  · intro s prevY now t1 hnear hfar hcf
    simp [checkHogLineCrossings, hogCrossEffect, hnear, hfar, hcf]

/-- Engine geometry for the C5 witness. -/
def c5wEngine : Engine := mkEngine { hogLineNear := some 1, hogLineFar := some 10 }

/-- A stone that has just moved from y = 0 to y = 2, across the near line. -/
def c5wStone : Stone := { blankStone with position := ⟨0, 2⟩ }

/-- C5 witness: a concrete first crossing of the near hog line records the
timestamp 7 and fires the near-cross notification. -/
theorem c5_hog_line_timing_witness :
    c5wStone.hogTiming.nearCrossedAt = none ∧
    crossesLine c5wEngine.hogLineNear 0 c5wStone.position.y ∧
    ((checkHogLineCrossings c5wEngine c5wStone 0 7).1.hogTiming.nearCrossedAt = some 7 ∧
     Event.hogNearCross ∈ (checkHogLineCrossings c5wEngine c5wStone 0 7).2) := by
  have h1 : c5wStone.hogTiming.nearCrossedAt = none := rfl
  have h2 : crossesLine c5wEngine.hogLineNear 0 c5wStone.position.y := by
    show crossesLine (some 1) 0 (2 : ℝ)
    unfold crossesLine
    norm_num
  exact ⟨h1, h2, (c5_hog_line_timing c5wEngine).2.1 c5wStone 0 7 h1 h2⟩

/-! Claim C3: spin decay. Field-preservation lemmas first: the path sampler
touches only the trace fields, the hog check only the timing, the out-tray
placement only the position. -/

@[simp]
theorem record_rotationRate (e : Engine) (s : Stone) (dt disp : ℝ) :
    (recordStonePathSample e s dt disp).rotationRate = s.rotationRate := rfl

@[simp]
theorem record_rotationActivated (e : Engine) (s : Stone) (dt disp : ℝ) :
    (recordStonePathSample e s dt disp).rotationActivated = s.rotationActivated := rfl

@[simp]
theorem record_pendingRotationRate (e : Engine) (s : Stone) (dt disp : ℝ) :
    (recordStonePathSample e s dt disp).pendingRotationRate = s.pendingRotationRate := rfl

@[simp]
theorem record_isLaunched (e : Engine) (s : Stone) (dt disp : ℝ) :
    (recordStonePathSample e s dt disp).isLaunched = s.isLaunched := rfl

@[simp]
theorem record_isOut (e : Engine) (s : Stone) (dt disp : ℝ) :
    (recordStonePathSample e s dt disp).isOut = s.isOut := rfl

@[simp]
theorem record_position (e : Engine) (s : Stone) (dt disp : ℝ) :
    (recordStonePathSample e s dt disp).position = s.position := rfl

@[simp]
theorem record_velocity (e : Engine) (s : Stone) (dt disp : ℝ) :
    (recordStonePathSample e s dt disp).velocity = s.velocity := rfl

@[simp]
theorem record_hasStoppedNotified (e : Engine) (s : Stone) (dt disp : ℝ) :
    (recordStonePathSample e s dt disp).hasStoppedNotified = s.hasStoppedNotified := rfl

@[simp]
theorem record_hogTiming (e : Engine) (s : Stone) (dt disp : ℝ) :
    (recordStonePathSample e s dt disp).hogTiming = s.hogTiming := rfl

@[simp]
theorem record_color (e : Engine) (s : Stone) (dt disp : ℝ) :
    (recordStonePathSample e s dt disp).color = s.color := rfl

@[simp]
theorem record_number (e : Engine) (s : Stone) (dt disp : ℝ) :
    (recordStonePathSample e s dt disp).number = s.number := rfl

@[simp]
theorem hogCheck_rotationRate (e : Engine) (s : Stone) (p n : ℝ) :
    (checkHogLineCrossings e s p n).1.rotationRate = s.rotationRate := rfl

@[simp]
theorem hogCheck_rotationActivated (e : Engine) (s : Stone) (p n : ℝ) :
    (checkHogLineCrossings e s p n).1.rotationActivated = s.rotationActivated := rfl

@[simp]
theorem hogCheck_pendingRotationRate (e : Engine) (s : Stone) (p n : ℝ) :
    (checkHogLineCrossings e s p n).1.pendingRotationRate = s.pendingRotationRate := rfl

@[simp]
theorem hogCheck_isLaunched (e : Engine) (s : Stone) (p n : ℝ) :
    (checkHogLineCrossings e s p n).1.isLaunched = s.isLaunched := rfl

@[simp]
theorem hogCheck_isOut (e : Engine) (s : Stone) (p n : ℝ) :
    (checkHogLineCrossings e s p n).1.isOut = s.isOut := rfl

@[simp]
theorem hogCheck_position (e : Engine) (s : Stone) (p n : ℝ) :
    (checkHogLineCrossings e s p n).1.position = s.position := rfl

@[simp]
theorem hogCheck_velocity (e : Engine) (s : Stone) (p n : ℝ) :
    (checkHogLineCrossings e s p n).1.velocity = s.velocity := rfl

@[simp]
theorem hogCheck_hasStoppedNotified (e : Engine) (s : Stone) (p n : ℝ) :
    (checkHogLineCrossings e s p n).1.hasStoppedNotified = s.hasStoppedNotified := rfl

@[simp]
theorem hogCheck_color (e : Engine) (s : Stone) (p n : ℝ) :
    (checkHogLineCrossings e s p n).1.color = s.color := rfl

@[simp]
theorem hogCheck_number (e : Engine) (s : Stone) (p n : ℝ) :
    (checkHogLineCrossings e s p n).1.number = s.number := rfl

@[simp]
theorem place_isLaunched (e : Engine) (t : List (StoneColor × ℕ)) (s : Stone) :
    (placeStoneInOutTray e t s).1.isLaunched = s.isLaunched := by
  unfold placeStoneInOutTray
  split
  · rfl
  · split
    · rfl
    · rfl

@[simp]
theorem place_rotationRate (e : Engine) (t : List (StoneColor × ℕ)) (s : Stone) :
    (placeStoneInOutTray e t s).1.rotationRate = s.rotationRate := by
  unfold placeStoneInOutTray
  split
  · rfl
  · split
    · rfl
    · rfl

@[simp]
theorem place_velocity (e : Engine) (t : List (StoneColor × ℕ)) (s : Stone) :
    (placeStoneInOutTray e t s).1.velocity = s.velocity := by
  unfold placeStoneInOutTray
  split
  · rfl
  · split
    · rfl
    · rfl

@[simp]
theorem place_isOut (e : Engine) (t : List (StoneColor × ℕ)) (s : Stone) :
    (placeStoneInOutTray e t s).1.isOut = s.isOut := by
  unfold placeStoneInOutTray
  split
  · rfl
  · split
    · rfl
    · rfl

@[simp]
theorem place_pendingRotationRate (e : Engine) (t : List (StoneColor × ℕ)) (s : Stone) :
    (placeStoneInOutTray e t s).1.pendingRotationRate = s.pendingRotationRate := by
  unfold placeStoneInOutTray
  split
  · rfl
  · split
    · rfl
    · rfl

@[simp]
theorem place_rotationActivated (e : Engine) (t : List (StoneColor × ℕ)) (s : Stone) :
    (placeStoneInOutTray e t s).1.rotationActivated = s.rotationActivated := by
  unfold placeStoneInOutTray
  split
  · rfl
  · split
    · rfl
    · rfl

@[simp]
theorem handleStoneOut_isLaunched (e : Engine) (t : List (StoneColor × ℕ)) (s : Stone) :
    (handleStoneOut e t s).1.isLaunched = false := by
  unfold handleStoneOut
  rw [place_isLaunched]

@[simp]
theorem handleStoneOut_rotationRate (e : Engine) (t : List (StoneColor × ℕ)) (s : Stone) :
    (handleStoneOut e t s).1.rotationRate = 0 := by
  unfold handleStoneOut
  rw [place_rotationRate]

@[simp]
theorem handleStoneOut_velocity (e : Engine) (t : List (StoneColor × ℕ)) (s : Stone) :
    (handleStoneOut e t s).1.velocity = ⟨0, 0⟩ := by
  unfold handleStoneOut
  rw [place_velocity]

/-- checkRotationActivation is the identity once the activation flag holds.
-/
theorem checkRotationActivation_of_activated (s : Stone) (p a : ℝ)
    (h : s.rotationActivated = true) : checkRotationActivation s p a = s := by
  unfold checkRotationActivation
  rw [if_pos (Or.inl h)]

/-- Either the stone is ruled out during the step (out-handling zeroes its
spin and clears isLaunched) or its post-step spin is exactly the
friction-decayed spin; no other part of a collision-free step touches the
spin of an activation-latched stone. -/
theorem stepStone_rotation_cases (e : Engine) (trays : List (StoneColor × ℕ))
    (dt now : ℝ) (s : Stone) (hl : s.isLaunched = true) (hact : s.rotationActivated = true) :
    (stepStone e trays dt now s).stone.isLaunched = false ∨
    (stepStone e trays dt now s).stone.rotationRate =
      decayRotation s.rotationRate (hypot s.velocity.vx s.velocity.vy)
        (e.frictionBaseline + e.frictionSpeedFactor /
          (hypot s.velocity.vx s.velocity.vy + e.frictionLowSpeedEps)) dt := by
  simp only [stepStone, hl, Bool.true_eq_false, if_false]
  split_ifs <;>
    first
      | (left
         simp
         done)
      | (right
         simp [checkRotationActivation_of_activated, hact]
         done)

theorem jsign_abs_of_ne {x : ℝ} (h : x ≠ 0) : |jsign x| = 1 := by
  unfold jsign
  rcases lt_trichotomy x 0 with hx | hx | hx
  · rw [if_pos hx]
    norm_num
  · exact absurd hx h
  · rw [if_neg (not_lt.2 hx.le), if_pos hx]
    norm_num

/-- The spin-decay block in closed form for a nonzero spin. -/
theorem decayRotation_eq (rot speed friction dt : ℝ) (h : rot ≠ 0) :
    decayRotation rot speed friction dt =
      jsign rot *
        max 0 (|rot| - (if speed ≤ SPEED_EPSILON then (1.4:ℝ) else 0.7) * friction * dt) := by
  simp only [decayRotation]
  rw [if_pos h]
  split_ifs with h1 h2 h3
  · rw [h2, mul_zero]
  · rfl
  · rw [h3, mul_zero]
  · rfl

/-- C3: for a launched, activation-latched, spinning stone that stays in
play, one collision-free integration step sets the spin to
sign(rotationRate) * max(0, |rotationRate| - m*friction*dt), with m = 1.4
when the translational speed is at or below the speed epsilon and 0.7
otherwise; the sign is preserved and the magnitude clamps to exactly zero;
consequently the spin magnitude is non-increasing step over step (for the
nonnegative friction configuration). -/
theorem c3_spin_decay (e : Engine) (trays : List (StoneColor × ℕ)) (dt now : ℝ) (s : Stone)
    (hl : s.isLaunched = true) (hact : s.rotationActivated = true)
    (hrot : s.rotationRate ≠ 0)
    (hstay : (stepStone e trays dt now s).stone.isLaunched = true)
    (hb : 0 ≤ e.frictionBaseline) (hf : 0 ≤ e.frictionSpeedFactor)
    (hle : 0 < e.frictionLowSpeedEps) (hdt : 0 ≤ dt) :
    (stepStone e trays dt now s).stone.rotationRate =
      jsign s.rotationRate *
        max 0 (|s.rotationRate| -
          (if hypot s.velocity.vx s.velocity.vy ≤ SPEED_EPSILON then (1.4:ℝ) else 0.7) *
          (e.frictionBaseline + e.frictionSpeedFactor /
            (hypot s.velocity.vx s.velocity.vy + e.frictionLowSpeedEps)) * dt) ∧
    |(stepStone e trays dt now s).stone.rotationRate| ≤ |s.rotationRate| := by
  rcases stepStone_rotation_cases e trays dt now s hl hact with hout | heq
  · rw [hstay] at hout
    exact absurd hout (by simp)
  · have hsp0 : 0 ≤ hypot s.velocity.vx s.velocity.vy := hypot_nonneg _ _
    have hfr0 : 0 ≤ e.frictionBaseline + e.frictionSpeedFactor /
        (hypot s.velocity.vx s.velocity.vy + e.frictionLowSpeedEps) := by
      have h1 : 0 < hypot s.velocity.vx s.velocity.vy + e.frictionLowSpeedEps := by linarith
      have h2 : 0 ≤ e.frictionSpeedFactor /
          (hypot s.velocity.vx s.velocity.vy + e.frictionLowSpeedEps) := div_nonneg hf h1.le
      linarith
    have hm0 : (0:ℝ) ≤
        (if hypot s.velocity.vx s.velocity.vy ≤ SPEED_EPSILON then (1.4:ℝ) else 0.7) := by
      split <;> norm_num
    have hd0 : 0 ≤ (if hypot s.velocity.vx s.velocity.vy ≤ SPEED_EPSILON then (1.4:ℝ) else 0.7) *
        (e.frictionBaseline + e.frictionSpeedFactor /
          (hypot s.velocity.vx s.velocity.vy + e.frictionLowSpeedEps)) * dt :=
      mul_nonneg (mul_nonneg hm0 hfr0) hdt
    have hdec := decayRotation_eq s.rotationRate (hypot s.velocity.vx s.velocity.vy)
      (e.frictionBaseline + e.frictionSpeedFactor /
        (hypot s.velocity.vx s.velocity.vy + e.frictionLowSpeedEps)) dt hrot
    constructor
    · rw [heq, hdec]
    · rw [heq, hdec, abs_mul, jsign_abs_of_ne hrot, one_mul,
        abs_of_nonneg (le_max_left 0 _)]
      exact max_le (abs_nonneg _) (by linarith)

/-- Default engine for the C3 witness. -/
def c3wEngine : Engine := mkEngine {}

/-- A launched, activation-latched stone spinning at 2 rad/s, at rest
translationally. -/
def c3wStone : Stone :=
  { blankStone with isLaunched := true, rotationActivated := true, rotationRate := 2 }

/-- C3 witness: the spin-decay law evaluated on a concrete stone of the
default engine. -/
theorem c3_spin_decay_witness :
    c3wStone.isLaunched = true ∧ c3wStone.rotationActivated = true ∧
    c3wStone.rotationRate ≠ 0 ∧
    (stepStone c3wEngine [] 1 0 c3wStone).stone.isLaunched = true ∧
    (0:ℝ) ≤ c3wEngine.frictionBaseline ∧ (0:ℝ) ≤ c3wEngine.frictionSpeedFactor ∧
    (0:ℝ) < c3wEngine.frictionLowSpeedEps ∧
    ((stepStone c3wEngine [] 1 0 c3wStone).stone.rotationRate =
      jsign c3wStone.rotationRate *
        max 0 (|c3wStone.rotationRate| -
          (if hypot c3wStone.velocity.vx c3wStone.velocity.vy ≤ SPEED_EPSILON
            then (1.4:ℝ) else 0.7) *
          (c3wEngine.frictionBaseline + c3wEngine.frictionSpeedFactor /
            (hypot c3wStone.velocity.vx c3wStone.velocity.vy + c3wEngine.frictionLowSpeedEps)) * 1) ∧
     |(stepStone c3wEngine [] 1 0 c3wStone).stone.rotationRate| ≤ |c3wStone.rotationRate|) := by
  have h1 : c3wStone.isLaunched = true := rfl
  have h2 : c3wStone.rotationActivated = true := rfl
  have h3 : c3wStone.rotationRate ≠ 0 := by
    norm_num [c3wStone, blankStone]
  have hb : (0:ℝ) ≤ c3wEngine.frictionBaseline := by
    norm_num [c3wEngine, mkEngine, DEFAULT_FRICTION_BASELINE]
  have hf : (0:ℝ) ≤ c3wEngine.frictionSpeedFactor := by
    norm_num [c3wEngine, mkEngine, DEFAULT_FRICTION_SPEED_FACTOR]
  have hle : (0:ℝ) < c3wEngine.frictionLowSpeedEps := by
    norm_num [c3wEngine, mkEngine, DEFAULT_FRICTION_LOW_SPEED_EPS]
  have hstay : (stepStone c3wEngine [] 1 0 c3wStone).stone.isLaunched = true := by
    norm_num [stepStone, c3wEngine, c3wStone, blankStone, mkEngine, decayRotation,
      hypot_zero, SPEED_EPSILON, DEFAULT_FRICTION_BASELINE, DEFAULT_FRICTION_SPEED_FACTOR,
      DEFAULT_FRICTION_LOW_SPEED_EPS, jsign, max_def, isOutBeforeFarHog,
      abs_of_nonneg, abs_of_pos]
  exact ⟨h1, h2, h3, hstay, hb, hf, hle,
    c3_spin_decay c3wEngine [] 1 0 c3wStone h1 h2 h3 hstay hb hf hle (by norm_num)⟩

/-! Claim C2: spin activation at the release line. -/

@[simp]
theorem checkRotationActivation_position (t : Stone) (p a : ℝ) :
    (checkRotationActivation t p a).position = t.position := by
  unfold checkRotationActivation
  split
  · rfl
  · dsimp only
    split <;> rfl

@[simp]
theorem checkRotationActivation_isLaunched (t : Stone) (p a : ℝ) :
    (checkRotationActivation t p a).isLaunched = t.isLaunched := by
  unfold checkRotationActivation
  split
  · rfl
  · dsimp only
    split <;> rfl

@[simp]
theorem checkRotationActivation_velocity (t : Stone) (p a : ℝ) :
    (checkRotationActivation t p a).velocity = t.velocity := by
  unfold checkRotationActivation
  split
  · rfl
  · dsimp only
    split <;> rfl

@[simp]
theorem decayRotation_zero (speed friction dt : ℝ) : decayRotation 0 speed friction dt = 0 := by
  simp [decayRotation]

/-- The transfer behaviour of checkRotationActivation for a latent pending
spin: crossing (in either direction, or landing exactly on the line)
transfers the pending spin and latches the flag; otherwise nothing changes.
-/
theorem checkRotationActivation_fields (t : Stone) (prev a : ℝ)
    (hp : t.pendingRotationRate ≠ 0) (ha : t.rotationActivated = false) :
    (((prev < a ∧ t.position.y ≥ a) ∨ (prev > a ∧ t.position.y ≤ a) ∨ t.position.y = a) →
      (checkRotationActivation t prev a).rotationRate = t.pendingRotationRate ∧
      (checkRotationActivation t prev a).pendingRotationRate = 0 ∧
      (checkRotationActivation t prev a).rotationActivated = true) ∧
    (¬((prev < a ∧ t.position.y ≥ a) ∨ (prev > a ∧ t.position.y ≤ a) ∨ t.position.y = a) →
      checkRotationActivation t prev a = t) := by
  unfold checkRotationActivation
  rw [if_neg (by
    rintro (h1 | h2)
    · rw [ha] at h1
      exact Bool.false_ne_true h1
    · exact hp h2)]
  constructor
  · intro hc
    rw [if_pos (or_assoc.mpr hc)]
    exact ⟨rfl, rfl, rfl⟩
  · intro hc
    rw [if_neg (fun h => hc (or_assoc.mp h))]

@[simp]
theorem handleStoneOut_rotationActivated (e : Engine) (t : List (StoneColor × ℕ)) (s : Stone) :
    (handleStoneOut e t s).1.rotationActivated = true := by
  unfold handleStoneOut
  rw [place_rotationActivated]

/-- The activation latch is permanent for the throw: no branch of the
per-stone step ever clears rotationActivated. -/
theorem stepStone_preserves_activated (e : Engine) (trays : List (StoneColor × ℕ))
    (dt now : ℝ) (s : Stone) (h : s.rotationActivated = true) :
    (stepStone e trays dt now s).stone.rotationActivated = true := by
  simp only [stepStone]
  split_ifs <;> simp [checkRotationActivation_of_activated, h]

set_option maxHeartbeats 2000000 in
/-- C2 (amended): a thrown stone's requested spin stays pending (rotation
rate zero) until its y-coordinate crosses the activation line located two
feet (2 x 0.3048 m, FOOT_IN_METERS * 2) before the near hog line; the
crossing is detected by comparing previous vs. current y against the
threshold (sign change in either direction, or exact equality); on crossing
pendingRotationRate transfers into rotationRate and is zeroed and the
re-activation-preventing flag is latched; the latch is permanent for the
throw. -/
theorem c2_rotation_activation (e : Engine) (trays : List (StoneColor × ℕ))
    (dt now : ℝ) (s : Stone)
    (hl : s.isLaunched = true)
    (hpend : s.pendingRotationRate ≠ 0)
    (hact : s.rotationActivated = false)
    (hrot : s.rotationRate = 0)
    (hsp : SPEED_EPSILON < hypot s.velocity.vx s.velocity.vy)
    (hstay : (stepStone e trays dt now s).stone.isLaunched = true) :
    rotationActivationY e = e.hogLineNear.getD 0 - FOOT_IN_METERS * 2 ∧
    ((((s.position.y < rotationActivationY e ∧
        (stepStone e trays dt now s).stone.position.y ≥ rotationActivationY e) ∨
      (s.position.y > rotationActivationY e ∧
        (stepStone e trays dt now s).stone.position.y ≤ rotationActivationY e) ∨
      (stepStone e trays dt now s).stone.position.y = rotationActivationY e) →
      (stepStone e trays dt now s).stone.rotationRate = s.pendingRotationRate ∧
      (stepStone e trays dt now s).stone.pendingRotationRate = 0 ∧
      (stepStone e trays dt now s).stone.rotationActivated = true) ∧
    (¬(((s.position.y < rotationActivationY e ∧
        (stepStone e trays dt now s).stone.position.y ≥ rotationActivationY e) ∨
      (s.position.y > rotationActivationY e ∧
        (stepStone e trays dt now s).stone.position.y ≤ rotationActivationY e) ∨
      (stepStone e trays dt now s).stone.position.y = rotationActivationY e)) →
      (stepStone e trays dt now s).stone.rotationRate = 0 ∧
      (stepStone e trays dt now s).stone.pendingRotationRate = s.pendingRotationRate ∧
      (stepStone e trays dt now s).stone.rotationActivated = false)) ∧
    (∀ s2 : Stone, s2.rotationActivated = true →
      (stepStone e trays dt now s2).stone.rotationActivated = true) := by
  refine ⟨rfl, ?_, fun s2 h2 => stepStone_preserves_activated e trays dt now s2 h2⟩
  simp only [stepStone, hl, Bool.true_eq_false, if_false] at hstay ⊢
  rw [if_neg (not_le.2 hsp)] at hstay ⊢
  split_ifs at hstay ⊢ <;>
    first
      | (exfalso
         rw [handleStoneOut_isLaunched] at hstay
         exact Bool.false_ne_true hstay)
      | (simp only [hogCheck_position, hogCheck_rotationRate, hogCheck_pendingRotationRate,
          hogCheck_rotationActivated, checkRotationActivation, apply_ite, ite_self,
          record_position, record_rotationRate, record_pendingRotationRate,
          record_rotationActivated, hrot, decayRotation_zero, hact, hpend,
          Bool.false_eq_true, false_or, or_false, if_false, ite_false, if_neg, not_false_eq_true]
         split_ifs with hC
         · refine ⟨fun _ => ⟨rfl, rfl, rfl⟩, fun hc => absurd (or_assoc.mp hC) hc⟩
         · refine ⟨fun hc => absurd (or_assoc.mpr hc) hC, fun _ => ⟨rfl, rfl, rfl⟩⟩
         done)
/-- With no sheet extents and no far hog line, the out-handling is
unreachable and the step never clears isLaunched. -/
theorem stepStone_isLaunched_of_no_bounds (e : Engine) (trays : List (StoneColor × ℕ))
    (dt now : ℝ) (s : Stone) (hse : e.sheetExtents = none) (hhf : e.hogLineFar = none) :
    (stepStone e trays dt now s).stone.isLaunched = s.isLaunched := by
  simp only [stepStone]
  split_ifs <;> simp_all [isOutOfBounds, isOutBeforeFarHog, hse, hhf]

/-- Engine with the curling game's stone radius (11.5 inches diameter,
0.14605 m radius) and the near hog line at y = 0. -/
def c2xEngine : Engine := mkEngine { hogLineNear := some 0, stoneRadius := some 0.14605 }

/-- A thrown stone with latent spin 3 rad/s gliding up the sheet at
0.3 m/s, just before the claimed two-stone-diameters activation line. -/
def c2xStone : Stone :=
  { blankStone with
    position := ⟨0, -0.6⟩
    velocity := ⟨0, 0.3⟩
    pendingRotationRate := 3
    isLaunched := true }

/-- C2 counterexample: during this 0.1 s step the stone's y-coordinate
crosses the line located exactly two stone-diameters (4 x 0.14605 m) before
the near hog line, yet the pending spin is NOT transferred: the code's
activation line sits two feet (0.6096 m) before the hog line, which is not
two stone-diameters of the game's stone. -/
theorem c2_two_diameters_counterexample :
    (c2xStone.position.y <
        c2xEngine.hogLineNear.getD 0 - 2 * (2 * c2xEngine.stoneRadius.getD 0) ∧
      c2xEngine.hogLineNear.getD 0 - 2 * (2 * c2xEngine.stoneRadius.getD 0) ≤
        (stepStone c2xEngine [] 0.1 0 c2xStone).stone.position.y) ∧
    (stepStone c2xEngine [] 0.1 0 c2xStone).stone.rotationRate = 0 ∧
    (stepStone c2xEngine [] 0.1 0 c2xStone).stone.pendingRotationRate = 3 ∧
    (stepStone c2xEngine [] 0.1 0 c2xStone).stone.rotationActivated = false ∧
    rotationActivationY c2xEngine ≠
      c2xEngine.hogLineNear.getD 0 - 2 * (2 * c2xEngine.stoneRadius.getD 0) := by
  refine ⟨?_, ?_⟩
  · norm_num [stepStone, c2xEngine, c2xStone, blankStone, mkEngine, computeCurlHeadingDelta,
      rotateDir, decayRotation, jsign, hypot_zero_left, isOutOfBounds, isOutBeforeFarHog,
      checkRotationActivation, rotationActivationY, SPEED_EPSILON, FOOT_IN_METERS,
      DEFAULT_FRICTION_BASELINE, DEFAULT_FRICTION_SPEED_FACTOR, DEFAULT_FRICTION_LOW_SPEED_EPS,
      DEFAULT_CURL_MIN_OMEGA, max_def, min_def, abs_of_nonneg]
  · refine ⟨?_, ?_, ?_, ?_⟩ <;>
      norm_num [stepStone, c2xEngine, c2xStone, blankStone, mkEngine, computeCurlHeadingDelta,
        rotateDir, decayRotation, jsign, hypot_zero_left, isOutOfBounds, isOutBeforeFarHog,
        checkRotationActivation, rotationActivationY, SPEED_EPSILON, FOOT_IN_METERS,
        DEFAULT_FRICTION_BASELINE, DEFAULT_FRICTION_SPEED_FACTOR, DEFAULT_FRICTION_LOW_SPEED_EPS,
        DEFAULT_CURL_MIN_OMEGA, max_def, min_def, abs_of_nonneg]

/-- Engine for the C2 witness: near hog line at y = 0, no bounds. -/
def c2wEngine : Engine := mkEngine { hogLineNear := some 0 }

/-- A thrown stone with latent spin approaching the two-feet activation
line. -/
def c2wStone : Stone :=
  { blankStone with
    position := ⟨0, -0.7⟩
    velocity := ⟨0, 2⟩
    pendingRotationRate := 3
    isLaunched := true }

/-- C2 witness: the amended theorem applied to a concrete moving stone with
latent spin. -/
theorem c2_rotation_activation_witness :
    c2wStone.isLaunched = true ∧ c2wStone.pendingRotationRate ≠ 0 ∧
    c2wStone.rotationActivated = false ∧ c2wStone.rotationRate = 0 ∧
    SPEED_EPSILON < hypot c2wStone.velocity.vx c2wStone.velocity.vy ∧
    (stepStone c2wEngine [] 0.1 0 c2wStone).stone.isLaunched = true ∧
    rotationActivationY c2wEngine = c2wEngine.hogLineNear.getD 0 - FOOT_IN_METERS * 2 := by
  have h1 : c2wStone.isLaunched = true := rfl
  have h2 : c2wStone.pendingRotationRate ≠ 0 := by
    norm_num [c2wStone, blankStone]
  have h3 : c2wStone.rotationActivated = false := rfl
  have h4 : c2wStone.rotationRate = 0 := rfl
  have h5 : SPEED_EPSILON < hypot c2wStone.velocity.vx c2wStone.velocity.vy := by
    show SPEED_EPSILON < hypot 0 2
    rw [hypot_zero_left 2 (by norm_num)]
    norm_num [SPEED_EPSILON]
  have h6 : (stepStone c2wEngine [] 0.1 0 c2wStone).stone.isLaunched = true := by
    rw [stepStone_isLaunched_of_no_bounds c2wEngine [] 0.1 0 c2wStone rfl rfl]
    rfl
  exact ⟨h1, h2, h3, h4, h5, h6,
    (c2_rotation_activation c2wEngine [] 0.1 0 c2wStone h1 h2 h3 h4 h5 h6).1⟩

/-! Claim C10: low-speed snap to exact rest. -/

@[simp]
theorem handleStoneOut_trays_velocity (e : Engine) (t : List (StoneColor × ℕ)) (s : Stone) :
    (handleStoneOut e t s).1.velocity.vx = 0 ∧ (handleStoneOut e t s).1.velocity.vy = 0 := by
  rw [handleStoneOut_velocity]
  exact ⟨rfl, rfl⟩

/-- After the per-stone phase, a launched stone's speed is exactly zero or
strictly above the epsilon: both rest branches write (0,0), the moving
branch re-tests the new speed and snaps sub-epsilon velocities to (0,0),
and out-handling writes (0,0). -/
theorem stepStone_speed_split (e : Engine) (trays : List (StoneColor × ℕ))
    (dt now : ℝ) (s : Stone) (hl : s.isLaunched = true) :
    hypot (stepStone e trays dt now s).stone.velocity.vx
      (stepStone e trays dt now s).stone.velocity.vy = 0 ∨
    hypot (stepStone e trays dt now s).stone.velocity.vx
      (stepStone e trays dt now s).stone.velocity.vy > SPEED_EPSILON := by
  simp only [stepStone, hl, Bool.true_eq_false, if_false]
  split_ifs <;>
    first
      | (left
         simp [hypot_zero, handleStoneOut_velocity]
         done)
      | (right
         assumption)

/-- Either a pair step leaves the state unchanged, or it records the pair
and writes back only the two stones of that pair. -/
theorem resolvePairAt_cases (e : Engine) (dt : ℝ) (st : List Stone × List (ℕ × ℕ))
    (q : ℕ × ℕ) :
    resolvePairAt e dt st q = st ∨
    ∃ a b, resolvePairAt e dt st q = ((st.1.set q.1 a).set q.2 b, st.2 ++ [q]) := by
  unfold resolvePairAt
  rcases st.1[q.1]? with _ | a0
  · exact Or.inl rfl
  · rcases st.1[q.2]? with _ | b0
    · exact Or.inl rfl
    · dsimp only
      split
      · exact Or.inl rfl
      · split
        · exact Or.inr ⟨_, _, rfl⟩
        · exact Or.inl rfl

/-- Folding the pair resolver never touches a stone outside the processed
pairs, and the processed-pair list only grows. -/
theorem resolveFold_untouched (e : Engine) (dt : ℝ) (k : ℕ) :
    ∀ (ps : List (ℕ × ℕ)) (st : List Stone × List (ℕ × ℕ)),
      (∀ p ∈ (ps.foldl (resolvePairAt e dt) st).2, p.1 ≠ k ∧ p.2 ≠ k) →
      (ps.foldl (resolvePairAt e dt) st).1[k]? = st.1[k]? ∧
      (∀ p ∈ st.2, p ∈ (ps.foldl (resolvePairAt e dt) st).2) := by
  intro ps
  induction ps with
  | nil =>
    intro st h
    exact ⟨rfl, fun p hp => hp⟩
  | cons q rest ih =>
    intro st h
    rw [List.foldl_cons] at h ⊢
    obtain ⟨hput, hmono⟩ := ih (resolvePairAt e dt st q) h
    rcases resolvePairAt_cases e dt st q with hsame | ⟨a, b, hset⟩
    · rw [hsame] at hput hmono ⊢
      exact ⟨hput, hmono⟩
    · have hqin : q ∈ (rest.foldl (resolvePairAt e dt) (resolvePairAt e dt st q)).2 := by
        apply hmono
        rw [hset]
        exact List.mem_append_right _ (List.mem_singleton.mpr rfl)
      obtain ⟨hq1, hq2⟩ := h q hqin
      constructor
      · rw [hput, hset]
        rw [List.getElem?_set_ne hq2, List.getElem?_set_ne hq1]
      · intro p hp
        apply hmono
        rw [hset]
        exact List.mem_append_left _ hp

/-- The engine produced by step carries the resolver's stone list and the
resolver's processed pairs, in both the active and the idle outcome. -/
theorem step_engine_stones (e : Engine) (dt now : ℝ) :
    (step e dt now).engine.stones =
      (resolveCollisions e dt (stepAllStones e dt now).stones).1 ∧
    (step e dt now).collidedPairs =
      (resolveCollisions e dt (stepAllStones e dt now).stones).2 := by
  simp only [step]
  split <;> exact ⟨rfl, rfl⟩

/-- The per-stone phase produces, at each index, the stepStone image of the
input stone at that index (under the tray state reached at its turn). -/
theorem stepAllStones_index (e : Engine) (dt now : ℝ) :
    ∀ (l : List Stone) (acc : StepAcc),
      (l.foldl (fun acc s =>
        let r := stepStone e acc.trays dt now s
        StepAcc.mk (acc.stones ++ [r.stone]) r.trays (acc.events ++ r.events)
          (acc.moving || r.moving)) acc).stones.length = acc.stones.length + l.length ∧
      (∀ k : ℕ, k < acc.stones.length →
        (l.foldl (fun acc s =>
          let r := stepStone e acc.trays dt now s
          StepAcc.mk (acc.stones ++ [r.stone]) r.trays (acc.events ++ r.events)
            (acc.moving || r.moving)) acc).stones[k]? = acc.stones[k]?) ∧
      (∀ (k : ℕ) (s : Stone), l[k]? = some s →
        ∃ tr, (l.foldl (fun acc s =>
          let r := stepStone e acc.trays dt now s
          StepAcc.mk (acc.stones ++ [r.stone]) r.trays (acc.events ++ r.events)
            (acc.moving || r.moving)) acc).stones[acc.stones.length + k]? =
          some (stepStone e tr dt now s).stone) := by
  intro l
  induction l with
  | nil =>
    intro acc
    refine ⟨by simp, fun k _ => rfl, fun k s hk => by simp at hk⟩
  | cons s0 rest ih =>
    intro acc
    rw [List.foldl_cons]
    obtain ⟨ihlen, ihkeep, ihnew⟩ :=
      ih (StepAcc.mk (acc.stones ++ [(stepStone e acc.trays dt now s0).stone])
        (stepStone e acc.trays dt now s0).trays
        (acc.events ++ (stepStone e acc.trays dt now s0).events)
        (acc.moving || (stepStone e acc.trays dt now s0).moving))
    refine ⟨?_, ?_, ?_⟩
    · rw [ihlen]
      simp
      omega
    · intro k hk
      rw [ihkeep k (by simp; omega)]
      dsimp only
      exact List.getElem?_append_left hk
    · intro k s hk
      rcases k with _ | k2
      · obtain hs0 : s0 = s := by simpa using hk
        subst hs0
        refine ⟨acc.trays, ?_⟩
        rw [Nat.add_zero, ihkeep acc.stones.length (by simp)]
        dsimp only
        exact List.getElem?_concat_length _ _
      · obtain ⟨tr, htr⟩ := ihnew k2 s (by simpa using hk)
        refine ⟨tr, ?_⟩
        dsimp only at htr
        rw [show acc.stones.length + (k2 + 1) =
          (acc.stones ++ [(stepStone e acc.trays dt now s0).stone]).length + k2 from by
            simp
            omega]
        exact htr

/-- C10: after a step of positive duration, every launched stone that is in
no pair processed by the collision resolver during that step (no other
launched, non-out stone within two radii when its pairs were examined) has
translational speed exactly zero or strictly above the speed epsilon:
sub-epsilon velocities are snapped to exactly (0, 0). -/
theorem c10_low_speed_snap (e : Engine) (dt now : ℝ) (k : ℕ) (s : Stone)
    (hdt : 0 < dt)
    (hs : e.stones[k]? = some s) (hl : s.isLaunched = true)
    (hnc : ∀ p ∈ (step e dt now).collidedPairs, p.1 ≠ k ∧ p.2 ≠ k) :
    ∃ s2, (step e dt now).engine.stones[k]? = some s2 ∧
      (hypot s2.velocity.vx s2.velocity.vy = 0 ∨
       hypot s2.velocity.vx s2.velocity.vy > SPEED_EPSILON) := by
  obtain ⟨hst, hpairs⟩ := step_engine_stones e dt now
  obtain ⟨tr, htr⟩ :=
    (stepAllStones_index e dt now e.stones ⟨[], e.outTrayIndices, [], false⟩).2.2 k s hs
  have hfold : (stepAllStones e dt now).stones[k]? = some (stepStone e tr dt now s).stone := by
    simpa [stepAllStones] using htr
  rw [hpairs] at hnc
  rw [hst]
  have hkept : (resolveCollisions e dt (stepAllStones e dt now).stones).1[k]? =
      (stepAllStones e dt now).stones[k]? := by
    unfold resolveCollisions at hnc ⊢
    by_cases hr : e.stoneRadius.getD 0.145 = 0
    · rw [if_pos hr]
    · rw [if_neg hr] at hnc ⊢
      exact (resolveFold_untouched e dt k _ _ hnc).1
  rw [hkept, hfold]
  exact ⟨(stepStone e tr dt now s).stone, rfl, stepStone_speed_split e tr dt now s hl⟩

/-- A single launched stone moving at 2 m/s. -/
def c10wStone : Stone := { blankStone with isLaunched := true, velocity := ⟨0, 2⟩ }

/-- A default engine holding only that stone. -/
def c10wEngine : Engine := { mkEngine {} with stones := [c10wStone] }

/-- C10 witness: a lone stone (no collision pairs at all) after a 1-second
step. -/
theorem c10_low_speed_snap_witness :
    (0:ℝ) < 1 ∧ c10wEngine.stones[0]? = some c10wStone ∧ c10wStone.isLaunched = true ∧
    (∀ p ∈ (step c10wEngine 1 0).collidedPairs, p.1 ≠ 0 ∧ p.2 ≠ 0) ∧
    (∃ s2, (step c10wEngine 1 0).engine.stones[0]? = some s2 ∧
      (hypot s2.velocity.vx s2.velocity.vy = 0 ∨
       hypot s2.velocity.vx s2.velocity.vy > SPEED_EPSILON)) := by
  have hcoll : (step c10wEngine 1 0).collidedPairs = [] := by
    rw [(step_engine_stones c10wEngine 1 0).2]
    have hlen : (stepAllStones c10wEngine 1 0).stones.length = 1 := by
      have h0 := (stepAllStones_index c10wEngine 1 0 c10wEngine.stones
        ⟨[], c10wEngine.outTrayIndices, [], false⟩).1
      simpa [stepAllStones, c10wEngine, c10wStone] using h0
    unfold resolveCollisions
    rw [if_neg (by
      show ¬ (c10wEngine.stoneRadius.getD 0.145 = 0)
      norm_num [c10wEngine, mkEngine])]
    rw [hlen]
    rw [show pairIndices 1 = ([] : List (ℕ × ℕ)) from rfl]
    rfl
  have hnc : ∀ p ∈ (step c10wEngine 1 0).collidedPairs, p.1 ≠ 0 ∧ p.2 ≠ 0 := by
    rw [hcoll]
    intro p hp
    exact absurd hp (List.not_mem_nil p)
  exact ⟨by norm_num, rfl, rfl, hnc,
    c10_low_speed_snap c10wEngine 1 0 0 c10wStone (by norm_num) rfl rfl hnc⟩

/-! Claim C1: the collision-rewind guard. -/

/-- Default engine with the stone radius 0.145 m. -/
def c1Engine : Engine := mkEngine { stoneRadius := some 0.145 }

/-- A launched stone at the origin moving at 1 m/s toward the other. -/
def c1A : Stone := { blankStone with velocity := ⟨1, 0⟩, isLaunched := true }

/-- A launched stone at rest 0.28 m away (overlap 0.01 m with radius
0.145). -/
def c1B : Stone := { blankStone with position := ⟨0.28, 0⟩, isLaunched := true }

/-- C1 (code evaluated at the failing input): the two stones are genuinely
approaching (their center distance is strictly decreasing), overlap by more
than the collision epsilon, and the step duration 0.1 s exceeds the speed
epsilon, yet the resolver computes a zero rewind time: its rewind guard
requires the relative velocity of A minus B along the A-to-B normal to be
below minus the speed epsilon, which holds only for separating pairs under
that sign convention. The pair instead receives the 50/50 positional
correction (A is pushed to x = -0.005, B to x = 0.285) rather than being
rewound to first contact as the specification describes. -/
theorem c1_no_rewind_for_approaching_pair :
    ((c1B.position.x - c1A.position.x) * (c1B.velocity.vx - c1A.velocity.vx) +
      (c1B.position.y - c1A.position.y) * (c1B.velocity.vy - c1A.velocity.vy) < 0) ∧
    (c1Engine.stoneRadius.getD 0.145 * 2 -
      hypot (c1B.position.x - c1A.position.x) (c1B.position.y - c1A.position.y) >
        COLLISION_EPSILON) ∧
    ((0.1:ℝ) > SPEED_EPSILON) ∧
    (resolvePairBody c1Engine 0.1 c1A c1B).processed = true ∧
    (resolvePairBody c1Engine 0.1 c1A c1B).rewindTime = 0 ∧
    (resolvePairBody c1Engine 0.1 c1A c1B).a.position.x = -0.005 ∧
    (resolvePairBody c1Engine 0.1 c1A c1B).b.position.x = 0.285 := by
  norm_num [resolvePairBody, c1Engine, c1A, c1B, blankStone, mkEngine, hypot_left_zero,
    COLLISION_EPSILON, SPEED_EPSILON, DEFAULT_COLLISION_RESTITUTION,
    DEFAULT_COLLISION_SPIN_TRANSFER, DEFAULT_COLLISION_SPIN_DAMPING,
    DEFAULT_COLLISION_TANGENTIAL_LOSS, max_def, min_def, abs_of_nonneg]

end Curling
